import Mathlib

/-!
Shallow embedding of the openamnesia incremental ingestion core
(`src/amnesia/…`) and proofs about it: the stable event/session
identifiers (`pipeline/normalize.py`), the record filter pipeline
(`filters.py`), the in-memory and SQLite persistence backends
(`store/memory.py`, `store/sqlite.py`), the incremental file trawler
(`ingest/trawl.py`), the file-drop connector (`connectors/file_drop.py`),
the configuration dataclasses (`config.py`) and the daemon cycle
(`daemon.py`).  Python `int` is embedded as `Int`/`Nat`, 32-bit words as
`Nat` reduced mod `2 ^ 32`, `datetime` as an integer UTC timestamp,
dictionaries as association lists with first-occurrence key order, and
fallible calls as `Except String`.
-/

namespace Amnesia

/-! ### Bytes and UTF-8 (model of `str.encode("utf-8")`) -/

/-- UTF-8 encoding of a single unicode code point, as byte values. -/
def utf8EncodeChar (c : Char) : List Nat :=
  let n := c.toNat
  if n < 0x80 then [n]
  else if n < 0x800 then
    [0xC0 ||| (n >>> 6), 0x80 ||| (n &&& 0x3F)]
  else if n < 0x10000 then
    [0xE0 ||| (n >>> 12), 0x80 ||| ((n >>> 6) &&& 0x3F), 0x80 ||| (n &&& 0x3F)]
  else
    [0xF0 ||| (n >>> 18), 0x80 ||| ((n >>> 12) &&& 0x3F),
     0x80 ||| ((n >>> 6) &&& 0x3F), 0x80 ||| (n &&& 0x3F)]

/-- UTF-8 encoding of a string: model of Python `s.encode("utf-8")`. -/
def utf8Encode (s : String) : List Nat :=
  (s.data.map utf8EncodeChar).flatten

/-! ### SHA-256 (model of `hashlib.sha256`), on `Nat` mod `2 ^ 32` -/

/-- 2 ^ 32, the modulus for 32-bit words. -/
def w32 : Nat := 4294967296

/-- Addition of 32-bit words. -/
def add32 (a b : Nat) : Nat := (a + b) % w32

/-- Right rotation of a 32-bit word by `k` bits. -/
def rotr32 (k n : Nat) : Nat := ((n >>> k) ||| (n <<< (32 - k))) % w32

/-- Bitwise complement of a 32-bit word. -/
def not32 (n : Nat) : Nat := 4294967295 - n % w32

/-- SHA-256 `Ch(x, y, z)`. -/
def shaCh (x y z : Nat) : Nat := (x &&& y) ^^^ (not32 x &&& z)

/-- SHA-256 `Maj(x, y, z)`. -/
def shaMaj (x y z : Nat) : Nat := (x &&& y) ^^^ (x &&& z) ^^^ (y &&& z)

/-- SHA-256 big sigma 0. -/
def bsig0 (x : Nat) : Nat := rotr32 2 x ^^^ rotr32 13 x ^^^ rotr32 22 x

/-- SHA-256 big sigma 1. -/
def bsig1 (x : Nat) : Nat := rotr32 6 x ^^^ rotr32 11 x ^^^ rotr32 25 x

/-- SHA-256 small sigma 0. -/
def ssig0 (x : Nat) : Nat := rotr32 7 x ^^^ rotr32 18 x ^^^ ((x % w32) >>> 3)

/-- SHA-256 small sigma 1. -/
def ssig1 (x : Nat) : Nat := rotr32 17 x ^^^ rotr32 19 x ^^^ ((x % w32) >>> 10)

/-- SHA-256 round constants (FIPS 180-4, in decimal). -/
def shaK : List Nat :=
  [1116352408, 1899447441, 3049323471, 3921009573, 961987163,
   1508970993, 2453635748, 2870763221, 3624381080, 310598401,
   607225278, 1426881987, 1925078388, 2162078206, 2614888103,
   3248222580, 3835390401, 4022224774, 264347078, 604807628,
   770255983, 1249150122, 1555081692, 1996064986, 2554220882,
   2821834349, 2952996808, 3210313671, 3336571891, 3584528711,
   113926993, 338241895, 666307205, 773529912, 1294757372,
   1396182291, 1695183700, 1986661051, 2177026350, 2456956037,
   2730485921, 2820302411, 3259730800, 3345764771, 3516065817,
   3600352804, 4094571909, 275423344, 430227734, 506948616,
   659060556, 883997877, 958139571, 1322822218, 1537002063,
   1747873779, 1955562222, 2024104815, 2227730452, 2361852424,
   2428436474, 2756734187, 3204031479, 3329325298]

/-- SHA-256 initial hash state (FIPS 180-4, in decimal). -/
def shaH0 : List Nat :=
  [1779033703, 3144134277, 1013904242, 2773480762,
   1359893119, 2600822924, 528734635, 1541459225]

/-- Big-endian 8-byte encoding of a natural number. -/
def be64 (n : Nat) : List Nat :=
  [(n >>> 56) % 256, (n >>> 48) % 256, (n >>> 40) % 256, (n >>> 32) % 256,
   (n >>> 24) % 256, (n >>> 16) % 256, (n >>> 8) % 256, n % 256]

/-- SHA-256 message padding: append `0x80`, zeros, and the bit length. -/
def shaPad (msg : List Nat) : List Nat :=
  let L := msg.length
  let zeros := (64 - ((L + 9) % 64)) % 64
  msg ++ [0x80] ++ List.replicate zeros 0 ++ be64 (8 * L)

/-- Group bytes into big-endian 32-bit words. -/
def toWords : List Nat → List Nat
  | a :: b :: c :: d :: rest => (((a * 256 + b) * 256 + c) * 256 + d) :: toWords rest
  | _ => []

/-- Extend 16 message words to the 64-word schedule (kept reversed). -/
def shaScheduleAux : Nat → List Nat → List Nat
  | 0, acc => acc
  | n + 1, acc =>
      let next := (ssig1 (acc.getD 1 0) + acc.getD 6 0 +
                   ssig0 (acc.getD 14 0) + acc.getD 15 0) % w32
      shaScheduleAux n (next :: acc)

/-- The 64-entry message schedule of one block. -/
def shaSchedule (blockWords : List Nat) : List Nat :=
  (shaScheduleAux 48 blockWords.reverse).reverse

/-- One SHA-256 round on the 8-word working state. -/
def shaRound (state : List Nat) (kw : Nat × Nat) : List Nat :=
  match state with
  | [a, b, c, d, e, f, g, h] =>
      let t1 := (h + bsig1 e + shaCh e f g + kw.1 + kw.2) % w32
      let t2 := (bsig0 a + shaMaj a b c) % w32
      [add32 t1 t2, a, b, c, add32 d t1, e, f, g]
  | s => s

/-- Compress one 64-byte block into the hash state. -/
def shaCompress (h : List Nat) (blockWords : List Nat) : List Nat :=
  let ws := shaSchedule blockWords
  let s := (shaK.zip ws).foldl shaRound h
  (h.zip s).map fun p => add32 p.1 p.2

/-- Split a word list into 16-word blocks (fuel bounds the recursion). -/
def chunk16Aux : Nat → List Nat → List (List Nat)
  | 0, _ => []
  | _, [] => []
  | fuel + 1, ws => ws.take 16 :: chunk16Aux fuel (ws.drop 16)

/-- Split a word list into 16-word blocks. -/
def chunk16 (ws : List Nat) : List (List Nat) := chunk16Aux ws.length ws

/-- SHA-256 digest of a byte list, as eight 32-bit words. -/
def sha256Words (msg : List Nat) : List Nat :=
  (chunk16 (toWords (shaPad msg))).foldl shaCompress shaH0

/-- Hexadecimal digit character. -/
def hexChar (n : Nat) : Char :=
  if n < 10 then Char.ofNat (48 + n) else Char.ofNat (87 + n % 16)

/-- Lowercase hex rendering of one byte. -/
def hexByte (n : Nat) : List Char := [hexChar ((n >>> 4) % 16), hexChar (n % 16)]

/-- Big-endian bytes of a 32-bit word. -/
def wordBytes (n : Nat) : List Nat :=
  [(n >>> 24) % 256, (n >>> 16) % 256, (n >>> 8) % 256, n % 256]

/-- Model of `hashlib.sha256(msg).hexdigest()`. -/
def sha256Hex (msg : List Nat) : String :=
  String.mk (((sha256Words msg).map wordBytes).flatten.map hexByte).flatten

/-! ### JSON values and small Python-semantics helpers -/

/-- A parsed JSON value, as produced by `json.loads`. -/
inductive Jv where
  | null : Jv
  | bool (b : Bool) : Jv
  | num (n : Int) : Jv
  | str (s : String) : Jv
  | arr (xs : List Jv) : Jv
  | obj (kvs : List (String × Jv)) : Jv
deriving BEq

/-- Model of Python `str(...)` on a JSON value.  Containers are rendered with
a placeholder: no claim inspects the rendering of non-scalar payloads. -/
def pyStr : Jv → String
  | .str s => s
  | .num n => toString n
  | .bool true => "True"
  | .bool false => "False"
  | .null => "None"
  | .arr _ => "<list>"
  | .obj _ => "<dict>"

/-- Model of Python truthiness on a JSON value. -/
def jvTruthy : Jv → Bool
  | .null => false
  | .bool b => b
  | .num n => n != 0
  | .str s => !s.isEmpty
  | .arr xs => !xs.isEmpty
  | .obj kvs => !kvs.isEmpty

/-- `d.get(k)` on a JSON object (first binding wins, as in a Python dict). -/
def objGet (kvs : List (String × Jv)) (k : String) : Option Jv :=
  kvs.lookup k

/-- `parsed.get(k)` as an optional record field: a missing key or a JSON
null both become Python `None`; other values are coerced with `str`. -/
def jvFieldStr (kvs : List (String × Jv)) (k : String) : Option String :=
  match objGet kvs k with
  | none => none
  | some .null => none
  | some v => some (pyStr v)

/-- `parsed.get(k)` kept as a hint field: Python stores the raw value, but
every downstream read either tests the hint's truthiness or renders a truthy
hint with `str`, so a falsy value (absent key, null, `0`, `False`, an empty
string or container) is embedded as `none` and a truthy one as its
rendering. -/
def jvHintStr (kvs : List (String × Jv)) (k : String) : Option String :=
  match objGet kvs k with
  | none => none
  | some v => if jvTruthy v then some (pyStr v) else none

/-- Does `needle` occur at the head of `hay`? -/
def charsHasAt : List Char → List Char → Bool
  | [], _ => true
  | _ :: _, [] => false
  | a :: xs, b :: ys => a == b && charsHasAt xs ys

/-- Does `needle` occur anywhere in `hay`?  Model of Python `needle in hay`. -/
def charsHasSub (needle hay : List Char) : Bool :=
  charsHasAt needle hay ||
    match hay with
    | [] => false
    | _ :: rest => charsHasSub needle rest

/-- Model of the Python substring test `needle in value` on strings. -/
def strHasSub (value needle : String) : Bool :=
  charsHasSub needle.data value.data

/-- Association-list update with Python-dict semantics: replace the value in
place when the key exists, otherwise append the new binding. -/
def dictSet {α : Type} : List (String × α) → String → α → List (String × α)
  | [], k, v => [(k, v)]
  | (k', v') :: t, k, v =>
      if k' = k then (k, v) :: t else (k', v') :: dictSet t k v

/-- Counter increment with Python `collections.Counter` semantics. -/
def counterAdd : List (String × Nat) → String → List (String × Nat)
  | [], k => [(k, 1)]
  | (k', n) :: t, k =>
      if k' = k then (k, n + 1) :: t else (k', n) :: counterAdd t k

/-! ### Data model (`connectors/base.py`, `models.py`)

`datetime` values are embedded as integer UTC timestamps, so `astimezone(UTC)`
is the identity and comparison is integer comparison. -/

/-- One observed unit of source activity (`SourceRecord`, `connectors/base.py`). -/
structure SourceRecord where
  source : String
  file_path : String
  line_number : Int
  content : String
  ts : Option Int := none
  session_hint : Option String := none
  group_hint : Option String := none
  actor : String := "user"
  tool_name : Option String := none
  tool_status : Option String := none
  tool_args_json : Option Jv := none
  tool_result_json : Option Jv := none
  metadata : List (String × Jv) := []
deriving BEq

/-- A canonical deduplicated event (`Event`, `models.py`). -/
structure Event where
  event_id : String
  ts : Int
  source : String
  session_id : String
  turn_index : Nat
  actor : String
  content : String
  tool_name : Option String := none
  tool_status : Option String := none
  tool_args_json : Option Jv := none
  tool_result_json : Option Jv := none
  meta_json : List (String × Jv) := []
deriving BEq

/-- An aggregate over events sharing a session id (`Session`, `models.py`).
Its `meta_json` dict only ever holds the `event_count` key. -/
structure Session where
  session_key : String
  session_id : String
  source : String
  start_ts : Int
  end_ts : Int
  summary : String
  meta_json : List (String × Int) := []
deriving BEq

/-- A derived moment (`Moment`, `models.py`).  The `evidence_json` and
`artifacts_json` dicts are given their fixed shapes; `friction_score` is a
`float` embedded as an exact rational. -/
structure Moment where
  moment_id : String
  session_key : String
  start_turn : Nat
  end_turn : Nat
  intent : String
  outcome : String
  friction_score : ℚ
  summary : String
  evidence_session_id : String
  evidence_day_ts : Int
  artifacts_commands : List String := []
  artifacts_count : Nat := 0
deriving BEq

/-- A mined skill candidate: the fixed shape of the free-form dict built by
`mine_skill_candidates` and extended by `optimize_skill`. -/
structure SkillCandidate where
  name : String
  trigger_intent : String
  steps : List String
  checks : List String
  support : Nat
  success_rate : ℚ
  avg_turns : ℚ
  optimized : Bool := false
deriving BEq

/-- Latest-known per-source health snapshot (`SourceStatus`, `models.py`). -/
structure SourceStatus where
  source : String
  status : String
  last_poll_ts : Int
  records_seen : Nat
  records_ingested : Nat
  error_message : Option String := none
deriving BEq, DecidableEq

/-- One ingestion audit record (`IngestAudit`, `models.py`); its
`details_json` dict only ever holds the `records` key. -/
structure IngestAudit where
  audit_id : String
  ts : Int
  source : String
  event_count : Nat
  session_count : Nat
  moment_count : Nat
  skill_count : Nat
  details_records : Nat
deriving BEq

/-- Status constants (`constants.py`). -/
def STATUS_IDLE : String := "idle"

/-- Status constant for a source that ingested records this cycle. -/
def STATUS_INGESTING : String := "ingesting"

/-- Status constant for a failed source. -/
def STATUS_ERROR : String := "error"

/-! ### Normalizer (`pipeline/normalize.py`) -/

/-- `stable_event_id` (`pipeline/normalize.py` lines 52-54): SHA-256 of
`source|file_path|line_number|content`. -/
def stable_event_id (source file_path : String) (line_number : Int) (content : String) : String :=
  let seed := source ++ "|" ++ file_path ++ "|" ++ toString line_number ++ "|" ++ content
  sha256Hex (utf8Encode seed)

/-- `stable_session_id` (`pipeline/normalize.py` lines 57-58). -/
def stable_session_id (seed : String) : String :=
  (sha256Hex (utf8Encode seed)).take 16

/-- The body of `normalize_records`, threading the per-session turn counters
through the loop over records.  `now` models `utc_now()`. -/
def normalizeAux (now : Int) : List SourceRecord → List (String × Nat) → List Event
  | [], _ => []
  | record :: rest, turn_counters =>
      let ts := record.ts.getD now
      let raw_session :=
        match record.session_hint with
        | some s =>
            if s.isEmpty then stable_session_id (record.source ++ ":" ++ record.file_path)
            else s
        | none => stable_session_id (record.source ++ ":" ++ record.file_path)
      let session_id := record.source ++ ":" ++ raw_session
      let turn_index := (turn_counters.lookup session_id).getD 0
      let event :=
        { event_id := stable_event_id record.source record.file_path
            record.line_number record.content
          ts := ts
          source := record.source
          session_id := session_id
          turn_index := turn_index
          actor := record.actor
          content := record.content
          tool_name := record.tool_name
          tool_status := record.tool_status
          tool_args_json := record.tool_args_json
          tool_result_json := record.tool_result_json
          meta_json := record.metadata : Event }
      event :: normalizeAux now rest (dictSet turn_counters session_id (turn_index + 1))

/-- `normalize_records` (`pipeline/normalize.py` lines 11-49). -/
def normalize_records (now : Int) (records : List SourceRecord) : List Event :=
  normalizeAux now records []

/-! ### Record filter pipeline (`filters.py`) -/

/-- A record predicate (`RecordFilter`). -/
def RecordFilter : Type := SourceRecord → Bool

/-- An ordered list of predicates (`SourceFilterPipeline`). -/
structure SourceFilterPipeline where
  filters : List RecordFilter := []

/-- The record loop of `SourceFilterPipeline.apply`: keep a record when every
predicate accepts it, otherwise count it as dropped. -/
def applyAux (filters : List RecordFilter) : List SourceRecord → List SourceRecord × Nat
  | [] => ([], 0)
  | r :: rest =>
      let (kept, dropped) := applyAux filters rest
      if filters.all fun predicate => predicate r then (r :: kept, dropped)
      else (kept, dropped + 1)

/-- `SourceFilterPipeline.apply` (`filters.py` lines 21-34), including the
early return for an empty filter list. -/
def SourceFilterPipeline.apply (p : SourceFilterPipeline) (records : List SourceRecord) :
    List SourceRecord × Nat :=
  if p.filters.isEmpty then (records, 0)
  else applyAux p.filters records

/-- `_normalized_terms` (`filters.py` lines 136-137). -/
def normalized_terms (values : List String) : List String :=
  (values.filter fun item => !item.trim.isEmpty).map fun item => item.toLower.trim

/-- `_contains_any` (`filters.py` lines 140-141). -/
def contains_any (value : String) (needles : List String) : Bool :=
  needles.any fun needle => strHasSub value needle

/-- `make_include_contains_filter` (`filters.py` lines 37-46). -/
def make_include_contains_filter (needles : List String) : RecordFilter :=
  let lowered := normalized_terms needles
  fun record =>
    if lowered.isEmpty then true
    else contains_any record.content.toLower lowered

/-- `make_exclude_contains_filter` (`filters.py` lines 49-58). -/
def make_exclude_contains_filter (needles : List String) : RecordFilter :=
  let lowered := normalized_terms needles
  fun record =>
    if lowered.isEmpty then true
    else !contains_any record.content.toLower lowered

/-- `make_since_filter` (`filters.py` lines 107-115): with a bound set, a
record with no timestamp is rejected. -/
def make_since_filter (since : Option Int) : RecordFilter :=
  fun record =>
    match since with
    | none => true
    | some bound =>
        match record.ts with
        | none => false
        | some ts => decide (bound ≤ ts)

/-- `make_until_filter` (`filters.py` lines 118-126). -/
def make_until_filter (until_ : Option Int) : RecordFilter :=
  fun record =>
    match until_ with
    | none => true
    | some bound =>
        match record.ts with
        | none => false
        | some ts => decide (ts ≤ bound)

/-! ### Persistence backends (`store/memory.py`, `store/sqlite.py`)

Python dicts keyed by the natural key become association lists in first
insertion order. -/

/-- The in-memory backend (`InMemoryStore`, `store/memory.py`), restricted to
the entity kinds the daemon cycle touches. -/
structure InMemoryStore where
  events : List (String × Event) := []
  sessions : List (String × Session) := []
  moments : List (String × Moment) := []
  skills : List (String × SkillCandidate) := []
  source_status : List (String × SourceStatus) := []
  audits : List IngestAudit := []

/-- `InMemoryStore.save_events` (`store/memory.py` lines 39-45): insert events
whose id is absent, count the inserts. -/
def save_events : InMemoryStore → List Event → InMemoryStore × Nat
  | store, [] => (store, 0)
  | store, event :: rest =>
      if (store.events.lookup event.event_id).isSome then save_events store rest
      else
        let (store', inserted) :=
          save_events { store with events := store.events ++ [(event.event_id, event)] } rest
        (store', inserted + 1)

/-- `InMemoryStore.save_sessions` (`store/memory.py` lines 47-53). -/
def save_sessions : InMemoryStore → List Session → InMemoryStore × Nat
  | store, [] => (store, 0)
  | store, session :: rest =>
      if (store.sessions.lookup session.session_key).isSome then save_sessions store rest
      else
        let (store', inserted) :=
          save_sessions
            { store with sessions := store.sessions ++ [(session.session_key, session)] } rest
        (store', inserted + 1)

/-- `InMemoryStore.save_moments` (`store/memory.py` lines 55-61). -/
def save_moments : InMemoryStore → List Moment → InMemoryStore × Nat
  | store, [] => (store, 0)
  | store, moment :: rest =>
      if (store.moments.lookup moment.moment_id).isSome then save_moments store rest
      else
        let (store', inserted) :=
          save_moments
            { store with moments := store.moments ++ [(moment.moment_id, moment)] } rest
        (store', inserted + 1)

/-- `InMemoryStore.save_skill_candidates` (`store/memory.py` lines 63-70):
counts keys that were new but always overwrites the stored value. -/
def save_skill_candidates : InMemoryStore → List SkillCandidate → InMemoryStore × Nat
  | store, [] => (store, 0)
  | store, skill :: rest =>
      let key := skill.name ++ ":v0"
      let isNew := (store.skills.lookup key).isNone
      let (store', inserted) :=
        save_skill_candidates { store with skills := dictSet store.skills key skill } rest
      (store', if isNew then inserted + 1 else inserted)

/-- `InMemoryStore.save_source_status` (`store/memory.py` lines 72-73):
upsert by source name. -/
def save_source_status (store : InMemoryStore) (status : SourceStatus) : InMemoryStore :=
  { store with source_status := dictSet store.source_status status.source status }

/-- `InMemoryStore.append_ingest_audit` (`store/memory.py` lines 78-79). -/
def append_ingest_audit (store : InMemoryStore) (audit : IngestAudit) : InMemoryStore :=
  { store with audits := store.audits ++ [audit] }

/-- Modelled from the spec: the SQLite `events` table (its DDL lives in
`store/schema.sql`, which is not part of the sources here).  Per the spec the
content-hash event id is the natural key with a uniqueness constraint, so the
table is a map from `event_id` to the stored row. -/
abbrev SqliteEventsTable : Type := List (String × Event)

/-- One `INSERT OR IGNORE` of an event row, together with whether the row
changed the table. -/
def sqliteInsertOrIgnore (table : SqliteEventsTable) (event : Event) :
    SqliteEventsTable × Bool :=
  if (List.lookup event.event_id table).isSome then (table, false)
  else (table ++ [(event.event_id, event)], true)

/-- `SQLiteStore.save_events` (`store/sqlite.py` lines 42-72): `executemany`
of `INSERT OR IGNORE` over the batch, returning the `total_changes` delta. -/
def sqlite_save_events : SqliteEventsTable → List Event → SqliteEventsTable × Nat
  | table, [] => (table, 0)
  | table, event :: rest =>
      let (table', changed) := sqliteInsertOrIgnore table event
      let (table'', inserted) := sqlite_save_events table' rest
      (table'', if changed then inserted + 1 else inserted)

/-! ### Sessionizer and downstream stages (`pipeline/…`) -/

/-- Append an event to its `(source, session_id)` group, preserving
first-seen key order (Python `defaultdict` iteration order). -/
def addToGroup (gs : List ((String × String) × List Event)) (k : String × String)
    (e : Event) : List ((String × String) × List Event) :=
  match gs with
  | [] => [(k, [e])]
  | (k', es) :: t => if k' = k then (k', es ++ [e]) :: t else (k', es) :: addToGroup t k e

/-- Strict order on the `(ts, turn_index)` sort key of `sessionize_events`. -/
def eventKeyLt (a b : Event) : Bool :=
  a.ts < b.ts || (a.ts == b.ts && a.turn_index < b.turn_index)

/-- Stable insertion into a `(ts, turn_index)`-sorted list. -/
def insertSorted (x : Event) : List Event → List Event
  | [] => [x]
  | y :: t => if eventKeyLt y x then y :: insertSorted x t else x :: y :: t

/-- Model of the stable `sorted(…, key=(ts, turn_index))`. -/
def sortedByTsTurn (es : List Event) : List Event :=
  es.foldr insertSorted []

/-- `sessionize_events` (`pipeline/sessionize.py`): group the batch by
`(source, session_id)` and summarize each group.  Groups are built non-empty,
so the `[]` branch is unreachable. -/
def sessionize_events (events : List Event) : List Session :=
  let grouped := events.foldl (fun gs e => addToGroup gs (e.source, e.session_id) e) []
  grouped.filterMap fun g =>
    match sortedByTsTurn g.2 with
    | [] => none
    | first :: rest =>
        some { session_key := g.1.2
               session_id := g.1.2
               source := g.1.1
               start_ts := first.ts
               end_ts := (rest.getLastD first).ts
               summary := first.content.take 160
               meta_json := [("event_count", ((first :: rest).length : Int))] }

/-- `momentize_sessions` (`pipeline/momentize.py`). -/
def momentize_sessions (sessions : List Session) : List Moment :=
  sessions.map fun session =>
    { moment_id := session.session_key ++ ":0"
      session_key := session.session_key
      start_turn := 0
      end_turn := (max ((session.meta_json.lookup "event_count").getD 1 - 1) 0).toNat
      intent := "unknown"
      outcome := "partial"
      friction_score := 0
      summary := session.summary
      evidence_session_id := session.session_id
      evidence_day_ts := session.start_ts
      artifacts_commands := []
      artifacts_count := 0 }

/-- `infer_intent` (`pipeline/extract.py` lines 35-42). -/
def infer_intent (content : String) : String :=
  if strHasSub content "release" || strHasSub content "changelog" then "release_notes"
  else if strHasSub content "test" || strHasSub content "failing" then "debug_and_fix"
  else if strHasSub content "refactor" then "refactor"
  else "general_task"

/-- Append an event to its `session_id` group (`setdefault` + `append`). -/
def addToStrGroup (gs : List (String × List Event)) (k : String) (e : Event) :
    List (String × List Event) :=
  match gs with
  | [] => [(k, [e])]
  | (k', es) :: t => if k' = k then (k', es ++ [e]) :: t else (k', es) :: addToStrGroup t k e

/-- `annotate_moments` (`pipeline/extract.py` lines 6-32). -/
def annotate_moments (moments : List Moment) (events : List Event) : List Moment :=
  let by_session := events.foldl (fun gs e => addToStrGroup gs e.session_id e) []
  moments.map fun moment =>
    let session_events := (by_session.lookup moment.session_key).getD []
    let content :=
      String.intercalate " " ((session_events.take 8).map fun e => e.content.toLower)
    let oc : String × ℚ :=
      if strHasSub content "error" || strHasSub content "failed" then ("fail", 0.8)
      else if strHasSub content "done" || strHasSub content "success" then ("success", 0.2)
      else ("partial", 0.5)
    { moment with
      outcome := oc.1
      friction_score := oc.2
      intent := infer_intent content
      artifacts_commands :=
        ((session_events.filter fun e => e.source == "terminal").map fun e => e.content).take 5
      artifacts_count := session_events.length }

/-- Round to the nearest integer, ties to even: the `round` applied by
`mine_skill_candidates`, on exact rationals. -/
def pyRoundHalfEven (q : ℚ) : Int :=
  let f := Int.floor q
  let r := q - f
  if r < 1/2 then f
  else if 1/2 < r then f + 1
  else if f % 2 = 0 then f else f + 1

/-- Python `round(q, digits)` on exact rationals. -/
def pyRound (q : ℚ) (digits : Nat) : ℚ :=
  (pyRoundHalfEven (q * 10 ^ digits) : ℚ) / 10 ^ digits

/-- `mine_skill_candidates` (`pipeline/skill_mine.py`). -/
def mine_skill_candidates (moments : List Moment) : List SkillCandidate :=
  let counts := moments.foldl (fun c m => counterAdd c m.intent) []
  counts.filterMap fun ic =>
    if ic.2 < 2 then none
    else
      let related := moments.filter fun m => m.intent == ic.1
      let denom : ℚ := (max related.length 1 : Nat)
      let success_rate :=
        ((related.filter fun m => m.outcome == "success").length : ℚ) / denom
      let avg_turns :=
        ((related.map fun m => (m.end_turn : ℚ) - (m.start_turn : ℚ) + 1).sum) / denom
      some { name := ic.1
             trigger_intent := ic.1
             steps := ["collect evidence", "summarize", "publish"]
             checks := ["outcome present", "artifacts present"]
             support := ic.2
             success_rate := pyRound success_rate 3
             avg_turns := pyRound avg_turns 2
             optimized := false }

/-- `optimize_skill` (`pipeline/optimize.py`): set the `optimized` flag in
the skill's metrics. -/
def optimize_skill (skill : SkillCandidate) : SkillCandidate :=
  { skill with optimized := true }

/-! ### Hook registry (`pipeline/hooks.py`) and `Daemon._process_records` -/

/-- Pipeline state handed to hooks (`PipelineContext`, `pipeline/base.py`).
The `derived` dict is only ever used with the `records` and `skills` keys. -/
structure PipelineContext where
  events : List Event := []
  sessions : List Session := []
  moments : List Moment := []
  derived_records : List SourceRecord := []
  derived_skills : List SkillCandidate := []

/-- A hook callback: an arbitrary Python callable, so it may raise. -/
def HookFn : Type := PipelineContext → Except String PipelineContext

/-- The six stage hook lists (`HookRegistry`, `pipeline/hooks.py`). -/
structure HookRegistry where
  pre_normalize : List HookFn := []
  post_normalize : List HookFn := []
  post_sessionize : List HookFn := []
  post_momentize : List HookFn := []
  post_extract : List HookFn := []
  post_skill_mine : List HookFn := []

/-- `HookRegistry.run`: fold the context through the hook list. -/
def run_hooks : List HookFn → PipelineContext → Except String PipelineContext
  | [], ctx => .ok ctx
  | hook :: rest, ctx =>
      match hook ctx with
      | .error e => .error e
      | .ok ctx' => run_hooks rest ctx'

/-- Per-source insertion counters (`ProcessCounts`, `daemon.py`). -/
structure ProcessCounts where
  inserted_events : Nat
  inserted_sessions : Nat
  inserted_moments : Nat
  inserted_skills : Nat
deriving BEq

/-- The stage-and-hook prefix of `Daemon._process_records` (`daemon.py`
lines 265-285): every fallible call happens here, before any store write. -/
def pipeline_stages (hooks : HookRegistry) (now : Int) (records : List SourceRecord) :
    Except String PipelineContext := do
  let ctx : PipelineContext := { derived_records := records }
  let ctx ← run_hooks hooks.pre_normalize ctx
  let ctx := { ctx with events := normalize_records now records }
  let ctx ← run_hooks hooks.post_normalize ctx
  let ctx := { ctx with sessions := sessionize_events ctx.events }
  let ctx ← run_hooks hooks.post_sessionize ctx
  let ctx := { ctx with moments := momentize_sessions ctx.sessions }
  let ctx ← run_hooks hooks.post_momentize ctx
  let ctx := { ctx with moments := annotate_moments ctx.moments ctx.events }
  let ctx ← run_hooks hooks.post_extract ctx
  let candidates := mine_skill_candidates ctx.moments
  let optimized := candidates.map optimize_skill
  let ctx := { ctx with derived_skills := optimized }
  run_hooks hooks.post_skill_mine ctx

/-- `Daemon._process_records` (`daemon.py` lines 264-323): run the pipeline
stages with their hooks, persist the results, and append exactly one audit
record.  `now` models `utc_now()` and `audit_id` the fresh `uuid4`; the
optional file exports touch no store state and are omitted. -/
def process_records (hooks : HookRegistry) (now : Int) (audit_id : String)
    (store0 : InMemoryStore) (source_name : String) (records : List SourceRecord) :
    Except String (ProcessCounts × InMemoryStore) :=
  match pipeline_stages hooks now records with
  | .error e => .error e
  | .ok ctx =>
      let r1 := save_events store0 ctx.events
      let store1 := r1.1
      let inserted_events := r1.2
      let r2 := save_sessions store1 ctx.sessions
      let store2 := r2.1
      let inserted_sessions := r2.2
      let r3 := save_moments store2 ctx.moments
      let store3 := r3.1
      let inserted_moments := r3.2
      let r4 := save_skill_candidates store3 ctx.derived_skills
      let store4 := r4.1
      let inserted_skills := r4.2
      let store5 := append_ingest_audit store4
        { audit_id := audit_id
          ts := now
          source := source_name
          event_count := inserted_events
          session_count := inserted_sessions
          moment_count := inserted_moments
          skill_count := inserted_skills
          details_records := records.length }
      .ok (⟨inserted_events, inserted_sessions, inserted_moments, inserted_skills⟩, store5)

/-! ### Connectors and the daemon cycle (`connectors/base.py`, `daemon.py`)

A connector owns an opaque per-source state blob (`σ` below); the daemon
stores blobs by source name and never interprets them.  A `poll` is an
arbitrary Python call, so it may raise. -/

/-- Per-poll counters (`SourcePollStats`, `connectors/base.py`). -/
structure SourcePollStats where
  items_seen : Nat := 0
  groups_seen : Nat := 0
  item_counts_by_group : List (String × Nat) := []
deriving BEq

/-- A successful poll (`SourcePollResult`, `connectors/base.py`). -/
structure SourcePollResult (σ : Type) where
  records : List SourceRecord
  state : σ
  stats : SourcePollStats := {}

/-- A source connector, reduced to the duck-typed `SourceConnector` protocol:
a name and a fallible `poll`. -/
structure Connector (σ : Type) where
  source_name : String
  poll : σ → Except String (SourcePollResult σ)

/-- Per-source cycle summary (`SourceIngestionSummary`, `api_objects/types.py`). -/
structure SourceIngestionSummary where
  source : String
  status : String
  records_seen : Nat
  records_ingested : Nat
  records_filtered : Nat := 0
  groups_seen : Nat := 0
  group_item_counts : List (String × Nat) := []
  inserted_events : Nat := 0
  inserted_sessions : Nat := 0
  inserted_moments : Nat := 0
  inserted_skills : Nat := 0
  error_message : Option String := none
deriving BEq

/-- The summary appended in the `except` branch of `Daemon.run`
(`daemon.py` lines 197-205). -/
def errorSummary (source msg : String) : SourceIngestionSummary :=
  { source := source
    status := STATUS_ERROR
    records_seen := 0
    records_ingested := 0
    error_message := some msg }

/-- The mutable state the cycle threads along: the per-source opaque blobs
(`RuntimeState.per_source`), the store, and the supply for fresh audit ids
(modelling `uuid4`). -/
structure CycleState (σ : Type) where
  per_source : List (String × σ) := []
  store : InMemoryStore := {}
  audit_seq : Nat := 0

/-- The parameters of one cycle that stay fixed across sources: the hook
registry, the per-source filter pipelines, the cycle clock and the default
(empty) state blob handed to a never-polled source. -/
structure CycleEnv (σ : Type) where
  hooks : HookRegistry := {}
  source_filters : List (String × SourceFilterPipeline) := []
  now : Int := 0
  empty_state : σ

/-- The body of the `for connector in self.connectors` loop of `Daemon.run`
(`daemon.py` lines 125-217): the whole `try` block for one source, with a
raised failure from poll, filtering, hooks or persistence caught and turned
into an `error` summary and status while the cycle goes on.  Note that the
blob written at line 134 survives a later failure of `_process_records`. -/
def processOneSource {σ : Type} (env : CycleEnv σ) (c : Connector σ)
    (st : CycleState σ) : SourceIngestionSummary × CycleState σ :=
  let source_state := (st.per_source.lookup c.source_name).getD env.empty_state
  match c.poll source_state with
  | .error msg =>
      let failStatus : SourceStatus :=
        { source := c.source_name
          status := STATUS_ERROR
          last_poll_ts := env.now
          records_seen := 0
          records_ingested := 0
          error_message := some msg }
      (errorSummary c.source_name msg,
       { st with store := save_source_status st.store failStatus })
  | .ok poll_result =>
      let st1 := { st with
        per_source := dictSet st.per_source c.source_name poll_result.state }
      let seen := poll_result.stats.items_seen
      let groups := poll_result.stats.groups_seen
      let group_counts := poll_result.stats.item_counts_by_group
      let pipeline := (env.source_filters.lookup c.source_name).getD {}
      let applied := pipeline.apply poll_result.records
      let filtered_records := applied.1
      let dropped_count := applied.2
      let ingested := filtered_records.length
      let finish := fun (status : String) (counts : ProcessCounts) (st' : CycleState σ) =>
        let okStatus : SourceStatus :=
          { source := c.source_name
            status := status
            last_poll_ts := env.now
            records_seen := seen
            records_ingested := ingested
            error_message := none }
        ({ source := c.source_name
           status := status
           records_seen := seen
           records_ingested := ingested
           records_filtered := dropped_count
           groups_seen := groups
           group_item_counts := group_counts
           inserted_events := counts.inserted_events
           inserted_sessions := counts.inserted_sessions
           inserted_moments := counts.inserted_moments
           inserted_skills := counts.inserted_skills : SourceIngestionSummary },
         { st' with store := save_source_status st'.store okStatus })
      if filtered_records.isEmpty then
        finish STATUS_IDLE ⟨0, 0, 0, 0⟩ st1
      else
        match process_records env.hooks env.now ("audit-" ++ toString st1.audit_seq)
            st1.store c.source_name filtered_records with
        | .error msg =>
            let failStatus : SourceStatus :=
              { source := c.source_name
                status := STATUS_ERROR
                last_poll_ts := env.now
                records_seen := 0
                records_ingested := 0
                error_message := some msg }
            (errorSummary c.source_name msg,
             { st1 with store := save_source_status st1.store failStatus })
        | .ok (counts, store') =>
            finish STATUS_INGESTING counts
              { st1 with store := store', audit_seq := st1.audit_seq + 1 }

/-- One full polling cycle over the configured connectors (`Daemon.run`
lines 121-219, minus the idle sleep and the checkpoint file write). -/
def runCycle {σ : Type} (env : CycleEnv σ) :
    List (Connector σ) → CycleState σ → List SourceIngestionSummary × CycleState σ
  | [], st => ([], st)
  | c :: rest, st =>
      let step := processOneSource env c st
      let rest_result := runCycle env rest step.2
      (step.1 :: rest_result.1, rest_result.2)

/-! ### Source configuration and daemon construction (`config.py`,
`daemon.py`, `connectors/registry.py`)

`SourceConfig` is declared with `@dataclass(slots=True)`, so reading any
attribute outside its declared fields raises `AttributeError`. -/

/-- The configuration of one source (`SourceConfig`, `config.py` lines 10-15). -/
structure SourceConfig where
  name : String
  enabled : Bool := true
  path : String := ""
  pattern : String := "*.log"

/-- The remaining configuration dataclasses (`config.py` lines 18-48),
carried by `AppConfig` but not read before `Daemon.__init__` raises. -/
structure StoreConfig where
  backend : String := "sqlite"
  dsn : String := "sqlite:///./amnesia.db"

/-- Daemon loop configuration (`DaemonConfig`, `config.py`). -/
structure DaemonConfig where
  poll_interval_seconds : Nat := 5
  state_path : String := ".amnesia_state.yaml"

/-- Export configuration (`ExportConfig`, `config.py`). -/
structure ExportConfig where
  enabled : Bool := true
  daily_dir : String := "./exports/daily"
  skills_dir : String := "./exports/skills"

/-- Hook plugin configuration (`HookConfig`, `config.py`). -/
structure HookConfig where
  plugins : List String := []

/-- The application configuration (`AppConfig`, `config.py` lines 42-48). -/
structure AppConfig where
  sources : List SourceConfig := []
  store : StoreConfig := {}
  daemon : DaemonConfig := {}
  exports : ExportConfig := {}
  hooks : HookConfig := {}

/-- The slots the `SourceConfig` dataclass declares. -/
def sourceConfigSlots : List String := ["name", "enabled", "path", "pattern"]

/-- Attribute access on a `SourceConfig` instance: succeeds exactly on the
declared slots, raises `AttributeError` otherwise. -/
def readSlot (attr : String) : Except String Unit :=
  if attr ∈ sourceConfigSlots then .ok ()
  else .error ("AttributeError: " ++ attr)

/-- `build_source_filter_pipeline` (`daemon.py` lines 80-86).  Its first
statement reads `source.include_contains`, which is not a declared slot, so
the remaining pipeline construction is unreachable. -/
def build_source_filter_pipeline (_source : SourceConfig) :
    Except String SourceFilterPipeline := do
  let _ ← readSlot "include_contains"
  let _ ← readSlot "exclude_contains"
  .ok {}

/-- `build_connectors` (`connectors/registry.py` lines 37-55): for every
enabled source it builds `ConnectorSettings(…, options=source.options)`;
`options` is not a declared slot, so that access raises.  The
`validate_source_module_structure` import checks are modelled as succeeding
(the packaged source modules import cleanly). -/
def build_connectors : List SourceConfig → Except String (List String)
  | [] => .ok []
  | source :: rest =>
      if source.enabled then do
        let _ ← readSlot "options"
        let others ← build_connectors rest
        .ok (source.name :: others)
      else build_connectors rest

/-- The `source_filters` dict comprehension of `Daemon.__init__` (lines
94-96): one `build_source_filter_pipeline` call per configured source,
enabled or not. -/
def build_filters : List SourceConfig → Except String (List (String × SourceFilterPipeline))
  | [] => .ok []
  | source :: rest => do
      let p ← build_source_filter_pipeline source
      let others ← build_filters rest
      .ok ((source.name, p) :: others)

/-- `Daemon.__init__` (`daemon.py` lines 90-96): `build_connectors` over the
configured sources, then a filter pipeline per source (enabled or not).  The
remaining construction steps (store, state file, plugins) follow these two
and are not modelled: with at least one source configured they are never
reached. -/
def daemon_init (config : AppConfig) :
    Except String (List String × List (String × SourceFilterPipeline)) := do
  let connectors ← build_connectors config.sources
  let filters ← build_filters config.sources
  .ok (connectors, filters)

/-! ### File-drop connector (`connectors/file_drop.py`)

The filesystem is a list of `(resolved path, stripped lines)` pairs in the
sorted order `_iter_files` produces; the per-source state maps a resolved
path to the last consumed 1-based line index.  The source-specific line
parser (`_parse_line`, overridden by the claude/cursor/codex/terminal
subclasses) is a parameter. -/

/-- Python `a or b` on an optional string operand (empty strings are falsy). -/
def orElseStr (v : Option String) (fallback : String) : String :=
  match v with
  | some s => if s.isEmpty then fallback else s
  | none => fallback

/-- The `for idx, line in enumerate(fh, start=1)` loop of
`FileDropConnector.poll` (lines 49-57): skip already-consumed lines, parse
the rest, count group keys, and track the last processed index. -/
def scanLinesAux (parseLine : String → Nat → String → Option SourceRecord)
    (file_key : String) (last_line : Nat) :
    Nat → List String → List (String × Nat) →
    List SourceRecord × List (String × Nat) × Nat
  | _, [], counter => ([], counter, 0)
  | idx, line :: rest, counter =>
      if idx ≤ last_line then scanLinesAux parseLine file_key last_line (idx + 1) rest counter
      else
        match parseLine file_key idx line with
        | some record =>
            let group_key := orElseStr record.group_hint
              (orElseStr record.session_hint file_key)
            let (records, counter', processed) :=
              scanLinesAux parseLine file_key last_line (idx + 1) rest
                (counterAdd counter group_key)
            (record :: records, counter', max idx processed)
        | none =>
            let (records, counter', processed) :=
              scanLinesAux parseLine file_key last_line (idx + 1) rest counter
            (records, counter', max idx processed)

/-- The file loop of `FileDropConnector.poll` (lines 40-60), threading the
copied state dict and the group counter. -/
def fileDropScanAux (parseLine : String → Nat → String → Option SourceRecord) :
    List (String × List String) → List (String × Nat) → List (String × Nat) →
    List SourceRecord × List (String × Nat) × List (String × Nat)
  | [], new_state, counter => ([], new_state, counter)
  | (file_key, lines) :: rest, new_state, counter =>
      let last_line := (new_state.lookup file_key).getD 0
      let (records, counter', processed) :=
        scanLinesAux parseLine file_key last_line 1 lines counter
      let new_state' :=
        if 0 < processed then dictSet new_state file_key processed else new_state
      let (records', new_state'', counter'') := fileDropScanAux parseLine rest new_state' counter'
      (records ++ records', new_state'', counter'')

/-- The attributes the `SourcePollResult` dataclass declares
(`connectors/base.py` lines 34-38): its three fields and nothing else — in
particular no `from_contracts` factory. -/
def sourcePollResultClassAttrs : List String := ["records", "state", "stats"]

/-- `FileDropConnector.poll` (`connectors/file_drop.py` lines 27-67).  Both
return paths call `SourcePollResult.from_contracts(...)`; that attribute is
not defined on the class, so the lookup raises `AttributeError` after the
scan has run.  The `ok` branch shows the result the call sites try to
build. -/
def file_drop_poll (parseLine : String → Nat → String → Option SourceRecord)
    (fs : List (String × List String)) (state : List (String × Nat)) :
    Except String (SourcePollResult (List (String × Nat))) :=
  let (records, new_state, group_counter) := fileDropScanAux parseLine fs state []
  if "from_contracts" ∈ sourcePollResultClassAttrs then
    .ok { records := records
          state := new_state
          stats := { items_seen := records.length
                     groups_seen := group_counter.length
                     item_counts_by_group := group_counter } }
  else
    .error "AttributeError: type object SourcePollResult has no attribute from_contracts"

/-! ### Runtime state loading (`daemon.py` `load_state`)

`yaml.safe_load` is a parameter: it returns `none` for an empty document,
a `Jv` for a parsed one, and raises (`.error`) on malformed input. -/

/-- The persisted runtime state (`RuntimeState`, `daemon.py` lines 48-54):
whatever object sat under the `per_source` key. -/
structure RuntimeState where
  per_source : Jv
deriving BEq

/-- `load_state` (`daemon.py` lines 65-70).  A missing file falls back to the
empty state; the `yaml.safe_load` call has no exception handler, so a parse
failure propagates; `raw = yaml.safe_load(fh) or {}` applies truthiness; and
`raw.get` raises `AttributeError` when the document is not a mapping. -/
def load_state (safe_load : String → Except String (Option Jv))
    (file : Option String) : Except String RuntimeState :=
  match file with
  | none => .ok ⟨.obj []⟩
  | some contents =>
      match safe_load contents with
      | .error e => .error e
      | .ok parsed =>
          let raw :=
            match parsed with
            | none => Jv.obj []
            | some v => if jvTruthy v then v else Jv.obj []
          match raw with
          | .obj kvs => .ok ⟨(kvs.lookup "per_source").getD (Jv.obj [])⟩
          | _ => .error "AttributeError: get"

/-! ### Incremental file trawler (`ingest/trawl.py`)

A tracked file is its path, inode, mtime and raw bytes; the trawl state maps
a path to its `FileCheckpoint`.  Byte-level reading follows
`fh.readline(max_line_bytes + 1)`.  The stdlib calls `json.loads` and
`datetime.fromisoformat` (via `_parse_ts`) are parameters of the model. -/

/-- Durable per-file progress (`FileCheckpoint`, `ingest/trawl.py` lines 16-23). -/
structure FileCheckpoint where
  path : String
  offset : Nat
  size : Nat
  mtime_ns : Nat
  inode : Nat
  digest : String
deriving BEq

/-- `IncrementalFileTrawler._checkpoint_for_file` (lines 223-241). -/
def checkpoint_for_file (path : String) (offset size mtime_ns inode : Nat) :
    FileCheckpoint :=
  let digest_seed := path ++ ":" ++ toString inode ++ ":" ++ toString size ++ ":" ++
    toString mtime_ns ++ ":" ++ toString offset
  { path := path
    offset := offset
    size := size
    mtime_ns := mtime_ns
    inode := inode
    digest := (sha256Hex (utf8Encode digest_seed)).take 16 }

/-- A candidate file on disk: its stat data and current bytes. -/
structure FileEntry where
  path : String
  inode : Nat
  mtime_ns : Nat
  bytes : List Nat

/-- The fixed construction parameters of an `IncrementalFileTrawler`
together with the stdlib functions its line parser calls. -/
structure TrawlEnv where
  source_name : String
  max_line_bytes : Nat := 1048576
  jsonLoads : String → Option Jv
  parseTs : String → Option Int

/-- The start offset decided at lines 99-101: resume at the stored offset
only when a checkpoint exists with the same inode and a size that did not
shrink; otherwise read from 0. -/
def start_offset_for (cp? : Option FileCheckpoint) (inode size : Nat) : Nat :=
  match cp? with
  | some cp => if cp.inode = inode ∧ cp.size ≤ size then cp.offset else 0
  | none => 0

/-- `fh.readline(k)`: consume bytes up to and including the first newline,
but at most `k` bytes. -/
def readlineAux : Nat → List Nat → List Nat × List Nat
  | _, [] => ([], [])
  | 0, l => ([], l)
  | k + 1, b :: rest =>
      if b = 10 then ([b], rest)
      else
        let (line, r) := readlineAux k rest
        (b :: line, r)

/-- The Unicode replacement character used by `errors="replace"`. -/
def replChar : Char := Char.ofNat 0xFFFD

/-- Is a byte a UTF-8 continuation byte? -/
def isCont (b : Nat) : Bool := decide (0x80 ≤ b) && decide (b < 0xC0)

/-- UTF-8 decoding with replacement characters: model of
`bytes.decode("utf-8", errors="replace")` (fuel bounds the recursion). -/
def utf8DecodeAux : Nat → List Nat → List Char
  | 0, _ => []
  | _, [] => []
  | fuel + 1, b :: rest =>
      if b < 0x80 then Char.ofNat b :: utf8DecodeAux fuel rest
      else if b < 0xC2 then replChar :: utf8DecodeAux fuel rest
      else if b < 0xE0 then
        match rest with
        | b1 :: r =>
            if isCont b1 then
              Char.ofNat (((b - 0xC0) <<< 6) + (b1 - 0x80)) :: utf8DecodeAux fuel r
            else replChar :: utf8DecodeAux fuel rest
        | [] => [replChar]
      else if b < 0xF0 then
        match rest with
        | b1 :: b2 :: r =>
            if isCont b1 && isCont b2 then
              let cp := ((b - 0xE0) <<< 12) + ((b1 - 0x80) <<< 6) + (b2 - 0x80)
              (if 0xD800 ≤ cp ∧ cp < 0xE000 then replChar else Char.ofNat cp) ::
                utf8DecodeAux fuel r
            else replChar :: utf8DecodeAux fuel rest
        | _ => [replChar]
      else if b < 0xF5 then
        match rest with
        | b1 :: b2 :: b3 :: r =>
            if isCont b1 && isCont b2 && isCont b3 then
              let cp := ((b - 0xF0) <<< 18) + ((b1 - 0x80) <<< 12) +
                ((b2 - 0x80) <<< 6) + (b3 - 0x80)
              (if cp < 0x110000 then Char.ofNat cp else replChar) :: utf8DecodeAux fuel r
            else replChar :: utf8DecodeAux fuel rest
        | _ => [replChar]
      else replChar :: utf8DecodeAux fuel rest

/-- Model of `raw_line.decode("utf-8", errors="replace")`. -/
def utf8Decode (bytes : List Nat) : String :=
  String.mk (utf8DecodeAux (bytes.length + 1) bytes)

/-- Model of `line.rstrip("\r\n")` (`\x5cr\x5cn` as a strip set). -/
def rstripCRLF (s : String) : String :=
  String.mk ((s.data.reverse.dropWhile fun c => c == '\n' || c == '\r').reverse)

/-- Model of the blank-line test `not line.strip()`. -/
def pyIsBlank (s : String) : Bool :=
  s.data.all Char.isWhitespace

/-- The opening-brace character. -/
def leftBrace : Char := Char.ofNat 123

/-- Does the string open with the given character?  Model of the
`line.startswith` check on a one-character needle. -/
def strHeadIs (s : String) (c : Char) : Bool :=
  match s.data with
  | [] => false
  | a :: _ => a == c

/-- `IncrementalFileTrawler._parse_line` (lines 169-221): skip blank lines,
attempt JSON when the line opens with a brace, fill defaults otherwise. -/
def trawl_parse_line (env : TrawlEnv) (file_path : String) (line_number : Nat)
    (line : String) : Option SourceRecord :=
  if pyIsBlank line then none
  else
    let parsed : Option (List (String × Jv)) :=
      if strHeadIs line leftBrace then
        match env.jsonLoads line with
        | some (.obj kvs) => some kvs
        | _ => none
      else none
    let base_meta : List (String × Jv) := [("path", .str file_path), ("ingest", .str "trawl")]
    match parsed with
    | none =>
        some { source := env.source_name
               file_path := file_path
               line_number := (line_number : Int)
               content := line
               actor := "user"
               metadata := base_meta }
    | some kvs =>
        let group_val : Option Jv :=
          match objGet kvs "group_id" with
          | some v => if jvTruthy v then some v else objGet kvs "chat_id"
          | none => objGet kvs "chat_id"
        some { source := env.source_name
               file_path := file_path
               line_number := (line_number : Int)
               content := ((objGet kvs "content").map pyStr).getD line
               ts := match objGet kvs "ts" with
                     | some (.str s) => env.parseTs s
                     | _ => none
               session_hint := jvHintStr kvs "session_id"
               group_hint := match group_val with
                             | none => none
                             | some v => if jvTruthy v then some (pyStr v) else none
               actor := ((objGet kvs "actor").map pyStr).getD "user"
               tool_name := jvFieldStr kvs "tool_name"
               tool_status := jvFieldStr kvs "tool_status"
               tool_args_json := match objGet kvs "tool_args" with
                                 | some .null => none
                                 | v => v
               tool_result_json := match objGet kvs "tool_result" with
                                   | some .null => none
                                   | v => v
               metadata := match objGet kvs "meta" with
                           | some (.obj mkvs) =>
                               mkvs.foldl (fun m kv => dictSet m kv.1 kv.2) base_meta
                           | _ => base_meta }

/-- Has the optional per-call emission limit been reached? -/
def limitHit (limit : Option Nat) (emitted : Nat) : Bool :=
  match limit with
  | none => false
  | some n => decide (n ≤ emitted)

/-- The `while True` read loop of `iter_new_records` (lines 116-137): read a
chunk of at most `max_line_bytes + 1` bytes, drop over-cap chunks without
incrementing the line counter, parse the rest, and stop early when the
emission limit is hit.  Returns the records, the bytes consumed, and whether
the generator returned early.  Fuel bounds the recursion; any fuel above the
remaining byte count gives the loop semantics. -/
def trawl_read_lines (env : TrawlEnv) (parse : Nat → String → Option SourceRecord)
    (limit : Option Nat) :
    Nat → Nat → Nat → List Nat → List SourceRecord × Nat × Bool
  | 0, _, _, _ => ([], 0, false)
  | fuel + 1, emitted, line_number, l =>
      let (raw_line, rest) := readlineAux (env.max_line_bytes + 1) l
      if raw_line.isEmpty then ([], 0, false)
      else if env.max_line_bytes < raw_line.length then
        let (records, consumed, stopped) :=
          trawl_read_lines env parse limit fuel emitted line_number rest
        (records, raw_line.length + consumed, stopped)
      else
        let line := rstripCRLF (utf8Decode raw_line)
        match parse (line_number + 1) line with
        | none =>
            let (records, consumed, stopped) :=
              trawl_read_lines env parse limit fuel emitted (line_number + 1) rest
            (records, raw_line.length + consumed, stopped)
        | some record =>
            if limitHit limit (emitted + 1) then ([record], raw_line.length, true)
            else
              let (records, consumed, stopped) :=
                trawl_read_lines env parse limit fuel (emitted + 1) (line_number + 1) rest
              (record :: records, raw_line.length + consumed, stopped)

/-- The per-file body of `iter_new_records` (lines 93-145): decide the start
offset, short-circuit when nothing is new, otherwise read from the offset
and checkpoint at the final stream position. -/
def trawl_file (env : TrawlEnv) (limit : Option Nat) (emitted : Nat)
    (f : FileEntry) (cp? : Option FileCheckpoint) :
    List SourceRecord × FileCheckpoint × Bool :=
  let size := f.bytes.length
  let start_offset := start_offset_for cp? f.inode size
  if size ≤ start_offset then
    ([], checkpoint_for_file f.path size size f.mtime_ns f.inode, false)
  else
    let parse := fun ln line => trawl_parse_line env f.path (ln + start_offset) line
    let (records, consumed, stopped) :=
      trawl_read_lines env parse limit (f.bytes.length + 1) emitted 0
        (f.bytes.drop start_offset)
    (records, checkpoint_for_file f.path (start_offset + consumed) size f.mtime_ns f.inode,
     stopped)

/-- `IncrementalFileTrawler.iter_new_records` (lines 85-145) over the sorted
candidate files, threading the state dict and the emission counter; an early
stop abandons the remaining files, as the generator `return` does. -/
def iter_new_records (env : TrawlEnv) (limit : Option Nat) :
    List FileEntry → List (String × FileCheckpoint) → Nat →
    List SourceRecord × List (String × FileCheckpoint)
  | [], state, _ => ([], state)
  | f :: rest, state, emitted =>
      let cp? := state.lookup f.path
      let (records, cp, stopped) := trawl_file env limit emitted f cp?
      let state' := dictSet state f.path cp
      if stopped then (records, state')
      else
        let (records', state'') := iter_new_records env limit rest state' (emitted + records.length)
        (records ++ records', state'')

/-! ### Specification-side characterizations

These definitions restate behavior in the spec's terms; the theorems below
compare the embedded code against them. -/

/-- The common insert-or-ignore fold both `save_events` backends refine:
insert a row under its event id unless the id is present, counting inserts. -/
def insertIgnoreList : List (String × Event) → List Event → List (String × Event) × Nat
  | table, [] => (table, 0)
  | table, event :: rest =>
      if (table.lookup event.event_id).isSome then insertIgnoreList table rest
      else
        let (table', inserted) :=
          insertIgnoreList (table ++ [(event.event_id, event)]) rest
        (table', inserted + 1)

/-- The chunks successive `readline(k)` calls return until end of stream. -/
def readlineChunks (k : Nat) : Nat → List Nat → List (List Nat)
  | 0, _ => []
  | fuel + 1, l =>
      let (raw, rest) := readlineAux k l
      if raw.isEmpty then [] else raw :: readlineChunks k fuel rest

/-- The records the spec predicts for a chunk list: chunks longer than the
cap are dropped without a line number; the rest are parsed as lines. -/
def chunkRecords (maxB : Nat) (parse : Nat → String → Option SourceRecord) :
    List (List Nat) → Nat → List SourceRecord
  | [], _ => []
  | c :: cs, ln =>
      if maxB < c.length then chunkRecords maxB parse cs ln
      else
        match parse (ln + 1) (rstripCRLF (utf8Decode c)) with
        | none => chunkRecords maxB parse cs (ln + 1)
        | some r => r :: chunkRecords maxB parse cs (ln + 1)

/-! ### Concrete fixtures used by witnesses and counterexamples -/

/-- A `json.loads` stand-in that never parses (no fixture line is JSON). -/
def jsonNone : String → Option Jv := fun _ => none

/-- A timestamp parser stand-in that never parses. -/
def tsNone : String → Option Int := fun _ => none

/-- A trawler capped at 4 bytes per line. -/
def envCap4 : TrawlEnv :=
  { source_name := "terminal", max_line_bytes := 4, jsonLoads := jsonNone, parseTs := tsNone }

/-- A trawler with the default 1 MiB line cap. -/
def envPlain : TrawlEnv :=
  { source_name := "terminal", jsonLoads := jsonNone, parseTs := tsNone }

/-- A tracked file holding one 12-byte line. -/
def fileLongLine : FileEntry :=
  { path := "logs/a.log", inode := 1, mtime_ns := 0, bytes := utf8Encode "abcdefghijk\n" }

/-- The file after a truncate-to-zero followed by a rewrite that regrows it
to 10 bytes, keeping the inode. -/
def fileRegrown : FileEntry :=
  { path := "logs/a.log", inode := 1, mtime_ns := 0, bytes := utf8Encode "bbbb\ncccc\n" }

/-- The file after a truncate-to-zero followed by a 3-byte rewrite. -/
def fileTruncated : FileEntry :=
  { path := "logs/a.log", inode := 1, mtime_ns := 0, bytes := utf8Encode "xx\n" }

/-- The checkpoint left by fully reading the 5-byte original file. -/
def cpStale : FileCheckpoint := checkpoint_for_file "logs/a.log" 5 5 0 1

/-- A tracked file at the moment its first 3-byte line has been written. -/
def fileHead : FileEntry :=
  { path := "logs/g.log", inode := 2, mtime_ns := 0, bytes := utf8Encode "aa\n" }

/-- The same file after a second 3-byte line is appended. -/
def fileWhole : FileEntry :=
  { path := "logs/g.log", inode := 2, mtime_ns := 0, bytes := utf8Encode "aa\nbb\n" }

/-- A daemon cycle environment over opaque `Nat` state blobs. -/
def cycleEnvNat : CycleEnv Nat := { empty_state := 0 }

/-- A connector that polls successfully with no records. -/
def connIdle (name : String) : Connector Nat :=
  { source_name := name, poll := fun s => .ok { records := [], state := s } }

/-- A connector whose poll raises. -/
def connBoom (name : String) : Connector Nat :=
  { source_name := name, poll := fun _ => .error "boom" }

/-- A plain raw record. -/
def recA : SourceRecord :=
  { source := "terminal", file_path := "a.log", line_number := 1, content := "run tests" }

/-- The same observation with a timestamp and another actor. -/
def recB : SourceRecord :=
  { source := "terminal", file_path := "a.log", line_number := 1, content := "run tests",
    ts := some 5, actor := "assistant" }

/-- A concrete event row. -/
def evA : Event :=
  { event_id := "id-a", ts := 0, source := "terminal", session_id := "terminal:s",
    turn_index := 0, actor := "user", content := "one" }

/-- A store already holding `evA`. -/
def storeA : InMemoryStore := { events := [("id-a", evA)] }

/-- A `yaml.safe_load` stand-in that raises on every document. -/
def yamlBoom : String → Except String (Option Jv) := fun _ => .error "ScannerError"

/-- A configured source, as the repository's own daemon test builds one. -/
def srcTerminal : SourceConfig :=
  { name := "terminal", enabled := true, path := "./ingest/terminal", pattern := "*.log" }

/-- A line parser stand-in building a minimal record per line. -/
def parsePlain : String → Nat → String → Option SourceRecord :=
  fun path idx line =>
    some { source := "terminal", file_path := path, line_number := (idx : Int), content := line }

/-! ### Association-list lemmas -/

theorem alookup_append {β : Type} (l l2 : List (String × β)) (k : String) :
    (l ++ l2).lookup k =
      (match l.lookup k with
       | some v => some v
       | none => l2.lookup k) := by
  induction l with
  | nil => rfl
  | cons p t ih =>
      obtain ⟨k', v⟩ := p
      by_cases h : k == k' <;> simp [List.lookup, h, ih]

theorem alookup_isSome_iff {β : Type} (l : List (String × β)) (k : String) :
    (l.lookup k).isSome = true ↔ k ∈ l.map Prod.fst := by
  induction l with
  | nil => simp [List.lookup]
  | cons p t ih =>
      obtain ⟨k', v⟩ := p
      by_cases h : k = k'
      · simp [List.lookup, h]
      · have hb : (k == k') = false := beq_eq_false_iff_ne.mpr h
        simp [List.lookup, hb, h, ih]

theorem dictSet_lookup_self {α : Type} (l : List (String × α)) (k : String) (v : α) :
    (dictSet l k v).lookup k = some v := by
  induction l with
  | nil => simp [dictSet, List.lookup]
  | cons p t ih =>
      obtain ⟨k', v'⟩ := p
      by_cases h : k' = k
      · simp [dictSet, h, List.lookup]
      · have hb : (k == k') = false := beq_eq_false_iff_ne.mpr (fun hk => h hk.symm)
        simp [dictSet, h, List.lookup, hb, ih]

/-! ### Insert-or-ignore lemmas shared by the two backends -/

theorem save_events_eq_iil (store : InMemoryStore) (es : List Event) :
    save_events store es =
      ({ store with events := (insertIgnoreList store.events es).1 },
       (insertIgnoreList store.events es).2) := by
  induction es generalizing store with
  | nil => simp [save_events, insertIgnoreList]
  | cons e rest ih =>
      by_cases h : (store.events.lookup e.event_id).isSome <;>
        simp [save_events, insertIgnoreList, h, ih]

theorem sqlite_eq_iil (table : SqliteEventsTable) (es : List Event) :
    sqlite_save_events table es = insertIgnoreList table es := by
  induction es generalizing table with
  | nil => rfl
  | cons e rest ih =>
      by_cases h : (List.lookup e.event_id table).isSome <;>
        simp [sqlite_save_events, insertIgnoreList, sqliteInsertOrIgnore, h, ih]

theorem iil_preserve (t : List (String × Event)) (es : List Event) (k : String)
    (h : (t.lookup k).isSome = true) :
    (insertIgnoreList t es).1.lookup k = t.lookup k := by
  induction es generalizing t with
  | nil => rfl
  | cons e rest ih =>
      by_cases he : (t.lookup e.event_id).isSome
      · simpa [insertIgnoreList, he] using ih t h
      · have happ : ((t ++ [(e.event_id, e)]).lookup k) = t.lookup k := by
          rw [alookup_append]
          obtain ⟨v, hv⟩ := Option.isSome_iff_exists.mp h
          simp [hv]
        have h' : ((t ++ [(e.event_id, e)]).lookup k).isSome = true := by
          rw [happ]; exact h
        simp only [insertIgnoreList, he, if_false, Bool.false_eq_true]
        rw [ih (t ++ [(e.event_id, e)]) h', happ]

theorem iil_keys (t : List (String × Event)) (es : List Event) (k : String) :
    ((insertIgnoreList t es).1.lookup k).isSome = true ↔
      ((t.lookup k).isSome = true ∨ k ∈ es.map fun e => e.event_id) := by
  induction es generalizing t with
  | nil => simp [insertIgnoreList]
  | cons e rest ih =>
      by_cases he : (t.lookup e.event_id).isSome
      · simp only [insertIgnoreList, he, if_true, List.map_cons, List.mem_cons]
        rw [ih]
        constructor
        · rintro (h | h)
          · exact Or.inl h
          · exact Or.inr (Or.inr h)
        · rintro (h | h | h)
          · exact Or.inl h
          · subst h; exact Or.inl he
          · exact Or.inr h
      · simp only [insertIgnoreList, he, if_false, Bool.false_eq_true, List.map_cons,
          List.mem_cons]
        rw [ih]
        have happ : ∀ k', ((t ++ [(e.event_id, e)]).lookup k').isSome = true ↔
            ((t.lookup k').isSome = true ∨ k' = e.event_id) := by
          intro k'
          rw [alookup_append]
          cases hv : t.lookup k' with
          | none =>
              by_cases hkk : k' = e.event_id
              · simp [List.lookup, hkk, hv]
              · have hb : (k' == e.event_id) = false := beq_eq_false_iff_ne.mpr hkk
                simp [List.lookup, hb, hkk, hv]
          | some v => simp [hv]
        rw [happ]
        tauto

theorem iil_new (t : List (String × Event)) (es : List Event) (k : String)
    (h : t.lookup k = none) :
    (insertIgnoreList t es).1.lookup k = es.find? fun e => e.event_id == k := by
  induction es generalizing t with
  | nil => simpa [insertIgnoreList] using h
  | cons e rest ih =>
      by_cases hk : e.event_id = k
      · subst hk
        have he : ¬ ((t.lookup e.event_id).isSome = true) := by simp [h]
        have happ : ((t ++ [(e.event_id, e)]).lookup e.event_id) = some e := by
          rw [alookup_append]
          simp [h, List.lookup]
        simp only [insertIgnoreList, he, if_false, Bool.false_eq_true, List.find?,
          beq_self_eq_true]
        rw [iil_preserve _ rest e.event_id (by rw [happ]; rfl), happ]
      · have hb : (e.event_id == k) = false := beq_eq_false_iff_ne.mpr hk
        have hfind : (List.find? (fun x => x.event_id == k) (e :: rest))
            = List.find? (fun x => x.event_id == k) rest := by
          simp [List.find?, hb]
        by_cases he : (t.lookup e.event_id).isSome
        · rw [hfind, ← ih t h]
          simp [insertIgnoreList, he]
        · have hb2 : (k == e.event_id) = false :=
            beq_eq_false_iff_ne.mpr (fun hc => hk hc.symm)
          have happ : ((t ++ [(e.event_id, e)]).lookup k) = none := by
            rw [alookup_append]
            simp [h, List.lookup, hb2]
          rw [hfind, ← ih (t ++ [(e.event_id, e)]) happ]
          simp [insertIgnoreList, he]

theorem iil_noop (t : List (String × Event)) (es : List Event)
    (h : ∀ e ∈ es, (t.lookup e.event_id).isSome = true) :
    insertIgnoreList t es = (t, 0) := by
  induction es with
  | nil => rfl
  | cons e rest ih =>
      have he := h e (List.mem_cons_self e rest)
      simp only [insertIgnoreList, he, if_true]
      exact ih fun e' h' => h e' (List.mem_cons_of_mem e h')

theorem iil_count (es : List Event) (t : List (String × Event)) :
    (insertIgnoreList t es).2 =
      (((es.map fun e => e.event_id).toFinset) \ ((t.map Prod.fst).toFinset)).card := by
  induction es generalizing t with
  | nil => simp [insertIgnoreList]
  | cons e rest ih =>
      by_cases he : (t.lookup e.event_id).isSome
      · have hmem : e.event_id ∈ (t.map Prod.fst).toFinset := by
          rw [List.mem_toFinset]
          exact (alookup_isSome_iff t e.event_id).mp he
        have hset : ((e.event_id :: rest.map fun x => x.event_id).toFinset)
              \ ((t.map Prod.fst).toFinset)
            = ((rest.map fun x => x.event_id).toFinset) \ ((t.map Prod.fst).toFinset) := by
          ext x
          simp only [List.toFinset_cons, Finset.mem_sdiff, Finset.mem_insert,
            List.mem_toFinset]
          constructor
          · rintro ⟨hx | hx, hnk⟩
            · exact absurd (hx ▸ hmem) (by simpa [List.mem_toFinset] using hnk)
            · exact ⟨hx, hnk⟩
          · rintro ⟨hx, hnk⟩
            exact ⟨Or.inr hx, hnk⟩
        simp only [insertIgnoreList, he, if_true, List.map_cons]
        rw [ih, hset]
      · have hnot : e.event_id ∉ (t.map Prod.fst).toFinset := by
          rw [List.mem_toFinset]
          intro hc
          exact he ((alookup_isSome_iff t e.event_id).mpr hc)
        have hkeys : (((t ++ [(e.event_id, e)]).map Prod.fst).toFinset)
            = insert e.event_id ((t.map Prod.fst).toFinset) := by
          ext x
          simp [List.mem_toFinset, eq_comm]
          tauto
        simp only [insertIgnoreList, he, if_false, Bool.false_eq_true, List.map_cons]
        rw [ih, hkeys]
        set S := (rest.map fun x => x.event_id).toFinset with hS
        set K := (t.map Prod.fst).toFinset with hK
        have h2 : S \ insert e.event_id K = (S \ K).erase e.event_id := by
          ext x
          simp only [Finset.mem_sdiff, Finset.mem_insert, Finset.mem_erase]
          tauto
        have h1 : (insert e.event_id S) \ K = insert e.event_id (S \ K) := by
          ext x
          simp only [Finset.mem_sdiff, Finset.mem_insert]
          constructor
          · rintro ⟨hx | hx, hnk⟩
            · exact Or.inl hx
            · exact Or.inr ⟨hx, hnk⟩
          · rintro (hx | ⟨hx, hnk⟩)
            · exact ⟨Or.inl hx, hx ▸ hnot⟩
            · exact ⟨Or.inr hx, hnk⟩
        have h3 : insert e.event_id (S \ K) = insert e.event_id ((S \ K).erase e.event_id) := by
          ext x
          simp only [Finset.mem_insert, Finset.mem_erase]
          tauto
        rw [List.toFinset_cons, h1, h3,
          Finset.card_insert_of_not_mem (Finset.not_mem_erase _ _), h2]

/-! ### Normalizer lemmas -/

theorem normalizeAux_ids (now : Int) (rs : List SourceRecord) (tc : List (String × Nat)) :
    (normalizeAux now rs tc).map (fun e => e.event_id)
      = rs.map fun r => stable_event_id r.source r.file_path r.line_number r.content := by
  induction rs generalizing tc with
  | nil => rfl
  | cons r rest ih => simp [normalizeAux, ih]

theorem normalize_ids (now : Int) (records : List SourceRecord) :
    (normalize_records now records).map (fun e => e.event_id)
      = records.map fun r => stable_event_id r.source r.file_path r.line_number r.content :=
  normalizeAux_ids now records []

/-! ### Filter pipeline lemmas -/

theorem applyAux_eq (filters : List RecordFilter) (records : List SourceRecord) :
    applyAux filters records =
      (records.filter fun r => filters.all fun predicate => predicate r,
       (records.filter fun r => !(filters.all fun predicate => predicate r)).length) := by
  induction records with
  | nil => rfl
  | cons r rest ih =>
      by_cases h : (filters.all fun predicate => predicate r) = true <;>
        simp [applyAux, List.filter, h, ih]

/-! ### Claim theorems -/

/-- C8: the filter pipeline keeps a record exactly when every predicate
accepts it and reports the dropped count; for a two-predicate pipeline,
membership in the kept list is the conjunction `P1(R) && P2(R)`; and a
since/until filter with a bound set rejects a record with no timestamp. -/
theorem filter_pipeline_and_semantics :
    (∀ (p : SourceFilterPipeline) (records : List SourceRecord),
        p.apply records =
          (records.filter fun r => p.filters.all fun predicate => predicate r,
           (records.filter fun r => !(p.filters.all fun predicate => predicate r)).length))
    ∧ (∀ (P1 P2 : RecordFilter) (records : List SourceRecord) (r : SourceRecord),
        r ∈ (SourceFilterPipeline.apply ⟨[P1, P2]⟩ records).1 ↔
          r ∈ records ∧ P1 r = true ∧ P2 r = true)
    ∧ (∀ (bound : Int) (r : SourceRecord), r.ts = none →
        make_since_filter (some bound) r = false)
    ∧ (∀ (bound : Int) (r : SourceRecord), r.ts = none →
        make_until_filter (some bound) r = false) := by
  refine ⟨?_, ?_, ?_, ?_⟩
  · intro p records
    cases hf : p.filters with
    | nil => simp [SourceFilterPipeline.apply, hf]
    | cons f fs => simp [SourceFilterPipeline.apply, hf, applyAux_eq]
  · intro P1 P2 records r
    simp [SourceFilterPipeline.apply, applyAux_eq, List.mem_filter, and_assoc]
  · intro bound r h
    simp [make_since_filter, h]
  · intro bound r h
    simp [make_until_filter, h]

/-- C8 witness: a record with no timestamp is rejected by concrete
since/until filters, via the claim theorem at `recA`. -/
theorem filter_pipeline_and_semantics_witness :
    make_since_filter (some 0) recA = false ∧ make_until_filter (some 0) recA = false :=
  ⟨filter_pipeline_and_semantics.2.2.1 0 recA rfl,
   filter_pipeline_and_semantics.2.2.2 0 recA rfl⟩

/-- C7: for both persistence backends, `save_events` returns the number of
identifiers not already present, never rewrites an existing row, and leaves
the stored key set equal to the old keys plus the batch identifiers, a new
identifier storing its first occurrence in the batch. -/
theorem save_events_insert_or_ignore :
    ∀ (store : InMemoryStore) (table : SqliteEventsTable) (events : List Event)
      (k : String),
      ((save_events store events).2 =
        (((events.map fun e => e.event_id).toFinset)
          \ ((store.events.map Prod.fst).toFinset)).card)
      ∧ ((sqlite_save_events table events).2 =
          (((events.map fun e => e.event_id).toFinset)
            \ ((table.map Prod.fst).toFinset)).card)
      ∧ ((store.events.lookup k).isSome = true →
          (save_events store events).1.events.lookup k = store.events.lookup k)
      ∧ ((table.lookup k).isSome = true →
          (sqlite_save_events table events).1.lookup k = table.lookup k)
      ∧ (((save_events store events).1.events.lookup k).isSome = true ↔
          ((store.events.lookup k).isSome = true ∨ k ∈ events.map fun e => e.event_id))
      ∧ (((sqlite_save_events table events).1.lookup k).isSome = true ↔
          ((table.lookup k).isSome = true ∨ k ∈ events.map fun e => e.event_id))
      ∧ (store.events.lookup k = none →
          (save_events store events).1.events.lookup k =
            events.find? fun e => e.event_id == k)
      ∧ (table.lookup k = none →
          (sqlite_save_events table events).1.lookup k =
            events.find? fun e => e.event_id == k) := by
  intro store table events k
  have hm := save_events_eq_iil store events
  have hs := sqlite_eq_iil table events
  refine ⟨?_, ?_, ?_, ?_, ?_, ?_, ?_, ?_⟩
  · rw [hm]; exact iil_count events store.events
  · rw [hs]; exact iil_count events table
  · intro h; rw [hm]; exact iil_preserve _ _ _ h
  · intro h; rw [hs]; exact iil_preserve _ _ _ h
  · rw [hm]; exact iil_keys _ _ _
  · rw [hs]; exact iil_keys _ _ _
  · intro h; rw [hm]; exact iil_new _ _ _ h
  · intro h; rw [hs]; exact iil_new _ _ _ h

/-- C7 witness: saving `evA` into a store that already holds it changes
nothing and counts zero, via the claim theorem at `storeA`. -/
theorem save_events_insert_or_ignore_witness :
    ((storeA.events.lookup "id-a").isSome = true
      ∧ (save_events storeA [evA]).1.events.lookup "id-a" = storeA.events.lookup "id-a")
    ∧ (save_events storeA [evA]).2 = 0 := by
  refine ⟨⟨rfl, (save_events_insert_or_ignore storeA [] [evA] "id-a").2.2.1 rfl⟩, rfl⟩

/-- C10: `build_source_filter_pipeline` reads the undeclared
`include_contains` slot and raises `AttributeError` on every `SourceConfig`;
consequently constructing a daemon from any configuration with at least one
source raises instead of returning. -/
theorem daemon_init_attribute_error :
    (∀ source : SourceConfig,
        build_source_filter_pipeline source = .error "AttributeError: include_contains")
    ∧ (∀ config : AppConfig, config.sources ≠ [] →
        ∃ msg, daemon_init config = .error msg) := by
  have hpipe : ∀ source : SourceConfig,
      build_source_filter_pipeline source = .error "AttributeError: include_contains" :=
    fun _ => rfl
  refine ⟨hpipe, ?_⟩
  intro config hne
  match hcfg : config.sources with
  | [] => exact absurd hcfg hne
  | s :: rest =>
      cases hc : build_connectors (s :: rest) with
      | error e =>
          refine ⟨e, ?_⟩
          unfold daemon_init
          rw [hcfg, hc]
          rfl
      | ok cs =>
          refine ⟨"AttributeError: include_contains", ?_⟩
          have hbf : build_filters (s :: rest)
              = .error "AttributeError: include_contains" := rfl
          unfold daemon_init
          rw [hcfg, hc]
          show build_filters (s :: rest) >>= (fun filters => Except.ok (cs, filters))
            = Except.error "AttributeError: include_contains"
          rw [hbf]
          rfl

/-- C10 witness: the claim theorem applied to a one-source configuration. -/
theorem daemon_init_attribute_error_witness :
    (AppConfig.mk [srcTerminal] {} {} {} {}).sources ≠ []
    ∧ ∃ msg, daemon_init (AppConfig.mk [srcTerminal] {} {} {} {}) = .error msg :=
  ⟨by simp, daemon_init_attribute_error.2 (AppConfig.mk [srcTerminal] {} {} {} {}) (by simp)⟩

/-- C3 (code bug): every `FileDropConnector.poll` call — for any line
parser, any filesystem contents and any state — ends in
`SourcePollResult.from_contracts(...)`, an attribute the dataclass never
defines, so poll raises `AttributeError` instead of returning records and
state; the repeat-poll contract the spec and the repository's own connector
test describe can never be observed. -/
theorem file_drop_poll_always_raises :
    ∀ (parseLine : String → Nat → String → Option SourceRecord)
      (fs : List (String × List String)) (state : List (String × Nat)),
      file_drop_poll parseLine fs state
        = .error
          "AttributeError: type object SourcePollResult has no attribute from_contracts" := by
  intro parseLine fs state
  rfl

/-- C6 (code bug): `load_state` has no handler around `yaml.safe_load`, so a
malformed state file propagates the parse failure to the daemon constructor
instead of falling back to the empty state. -/
theorem load_state_propagates_parse_errors :
    ∀ (safe_load : String → Except String (Option Jv)) (contents e : String),
      safe_load contents = .error e →
      load_state safe_load (some contents) = .error e := by
  intro safe_load contents e h
  simp [load_state, h]

/-- C6 witness: the claim theorem at a concrete malformed document. -/
theorem load_state_propagates_parse_errors_witness :
    load_state yamlBoom (some "per_source: [") = .error "ScannerError" :=
  load_state_propagates_parse_errors yamlBoom "per_source: [" "ScannerError" rfl

/-! ### File-drop scan lemmas

The scan loop inside `FileDropConnector.poll` does satisfy the repeat-poll
contract the spec and `tests/test_connectors.py` describe; only the
`from_contracts` return step breaks it.  This section proves the loop-level
idempotence backing that reading. -/

theorem dictSet_lookup_ne {α : Type} (l : List (String × α)) (k k' : String) (v : α)
    (h : k ≠ k') : (dictSet l k' v).lookup k = l.lookup k := by
  induction l with
  | nil => simp [dictSet, List.lookup, beq_eq_false_iff_ne.mpr h]
  | cons p t ih =>
      obtain ⟨k'', v''⟩ := p
      by_cases hk : k'' = k'
      · subst hk
        simp [dictSet, List.lookup, beq_eq_false_iff_ne.mpr h]
      · simp [dictSet, hk, List.lookup, ih]

theorem scanLinesAux_all_skipped (parseLine : String → Nat → String → Option SourceRecord)
    (file_key : String) (last_line : Nat) :
    ∀ (lines : List String) (idx : Nat) (counter : List (String × Nat)),
      idx + lines.length ≤ last_line + 1 →
      scanLinesAux parseLine file_key last_line idx lines counter = ([], counter, 0) := by
  intro lines
  induction lines with
  | nil => intro idx counter h; rfl
  | cons line rest ih =>
      intro idx counter h
      simp only [List.length_cons] at h
      have hskip : idx ≤ last_line := by omega
      simp only [scanLinesAux, hskip, if_pos]
      exact ih (idx + 1) counter (by omega)

theorem scanLinesAux_processed (parseLine : String → Nat → String → Option SourceRecord)
    (file_key : String) (last_line : Nat) :
    ∀ (lines : List String) (idx : Nat) (counter : List (String × Nat)),
      lines ≠ [] → last_line + 1 < idx + lines.length →
      (scanLinesAux parseLine file_key last_line idx lines counter).2.2
        = idx + lines.length - 1 := by
  intro lines
  induction lines with
  | nil => intro idx counter h; exact absurd rfl h
  | cons line rest ih =>
      intro idx counter _ hlt
      simp only [List.length_cons] at hlt ⊢
      by_cases hskip : idx ≤ last_line
      · have hrest : rest ≠ [] := by
          intro hc
          subst hc
          simp at hlt
          omega
        have hlen : 0 < rest.length := List.length_pos.mpr hrest
        simp only [scanLinesAux, hskip, if_pos]
        rw [ih (idx + 1) counter hrest (by omega)]
        omega
      · simp only [scanLinesAux, hskip, if_neg, Bool.false_eq_true]
        by_cases hrest : rest = []
        · subst hrest
          cases hp : parseLine file_key idx line <;>
            simp [scanLinesAux, hp]
        · have hlen : 0 < rest.length := List.length_pos.mpr hrest
          have hgoal : ∀ c' : List (String × Nat),
              max idx (scanLinesAux parseLine file_key last_line (idx + 1) rest c').2.2
                = idx + (line :: rest).length - 1 := by
            intro c'
            rw [ih (idx + 1) c' hrest (by omega)]
            simp only [List.length_cons]
            omega
          cases hp : parseLine file_key idx line <;>
            simpa [hp, List.length_cons] using hgoal _

theorem fileDropScanAux_untouched (parseLine : String → Nat → String → Option SourceRecord)
    (fs : List (String × List String)) :
    ∀ (state counter : List (String × Nat)) (k : String), k ∉ fs.map Prod.fst →
      ((fileDropScanAux parseLine fs state counter).2.1).lookup k = state.lookup k := by
  induction fs with
  | nil => intro state counter k _; rfl
  | cons p rest ih =>
      intro state counter k hk
      obtain ⟨file_key, lines⟩ := p
      have hne : k ≠ file_key := by
        intro hc
        exact hk (by simp [hc])
      have hk' : k ∉ rest.map Prod.fst := fun hc => hk (by simp [hc])
      simp only [fileDropScanAux]
      by_cases hpos :
          0 < (scanLinesAux parseLine file_key
            ((state.lookup file_key).getD 0) 1 lines counter).2.2
      · rw [if_pos hpos, ih _ _ k hk', dictSet_lookup_ne _ _ _ _ hne]
      · rw [if_neg hpos, ih _ _ k hk']

theorem fileDropScanAux_covers (parseLine : String → Nat → String → Option SourceRecord)
    (fs : List (String × List String)) :
    ∀ (state counter : List (String × Nat)), (fs.map Prod.fst).Nodup →
      ∀ kl ∈ fs,
        kl.2.length ≤ (((fileDropScanAux parseLine fs state counter).2.1).lookup kl.1).getD 0 := by
  induction fs with
  | nil => intro state counter _ kl hkl; cases hkl
  | cons p rest ih =>
      intro state counter hnodup kl hkl
      obtain ⟨file_key, lines⟩ := p
      have hnodup' : (rest.map Prod.fst).Nodup := by
        simp only [List.map_cons, List.nodup_cons] at hnodup
        exact hnodup.2
      have hhead : file_key ∉ rest.map Prod.fst := by
        have h := hnodup
        simp only [List.map_cons, List.nodup_cons] at h
        exact h.1
      rcases List.mem_cons.mp hkl with hkl | hkl
      · subst hkl
        simp only [fileDropScanAux]
        by_cases hgrow : (state.lookup file_key).getD 0 < lines.length
        · have hne : lines ≠ [] := by
            intro hc
            subst hc
            simp at hgrow
          have hproc := scanLinesAux_processed parseLine file_key
            ((state.lookup file_key).getD 0) lines 1 counter hne (by omega)
          have hpos : 0 < (scanLinesAux parseLine file_key
              ((state.lookup file_key).getD 0) 1 lines counter).2.2 := by
            rw [hproc]
            have : 0 < lines.length := List.length_pos.mpr hne
            omega
          rw [if_pos hpos,
            fileDropScanAux_untouched parseLine rest _ _ file_key hhead,
            dictSet_lookup_self, hproc]
          simp
        · have hall := scanLinesAux_all_skipped parseLine file_key
            ((state.lookup file_key).getD 0) lines 1 counter (by omega)
          rw [hall, if_neg (Nat.lt_irrefl 0),
            fileDropScanAux_untouched parseLine rest _ _ file_key hhead]
          omega
      · exact ih _ _ hnodup' kl hkl

theorem fileDropScanAux_noop (parseLine : String → Nat → String → Option SourceRecord)
    (fs : List (String × List String)) :
    ∀ (state counter : List (String × Nat)),
      (∀ kl ∈ fs, kl.2.length ≤ ((state.lookup kl.1).getD 0)) →
      fileDropScanAux parseLine fs state counter = ([], state, counter) := by
  induction fs with
  | nil => intro state counter _; rfl
  | cons p rest ih =>
      intro state counter hcov
      obtain ⟨file_key, lines⟩ := p
      have hc := hcov (file_key, lines) (List.mem_cons_self _ _)
      simp only [] at hc
      have hall := scanLinesAux_all_skipped parseLine file_key
        ((state.lookup file_key).getD 0) lines 1 counter (by omega)
      simp only [fileDropScanAux, hall]
      rw [if_neg (Nat.lt_irrefl 0),
        ih state counter fun kl hkl => hcov kl (List.mem_cons_of_mem _ hkl)]
      rfl

/-- The scan loop of `FileDropConnector.poll` is idempotent: rescanning the
same files with the state the first scan produced yields no records, the
same state, and empty group counts — the contract `poll` itself can never
exhibit because of the missing `from_contracts` factory. -/
theorem file_drop_scan_idempotent (parseLine : String → Nat → String → Option SourceRecord)
    (fs : List (String × List String)) (state0 : List (String × Nat))
    (hnodup : (fs.map Prod.fst).Nodup) :
    fileDropScanAux parseLine fs ((fileDropScanAux parseLine fs state0 []).2.1) []
      = ([], (fileDropScanAux parseLine fs state0 []).2.1, []) :=
  fileDropScanAux_noop parseLine fs _ [] fun kl hkl =>
    fileDropScanAux_covers parseLine fs state0 [] hnodup kl hkl

/-! ### Trawler lemmas -/

theorem readlineAux_append (k : Nat) (l : List Nat) :
    (readlineAux k l).1 ++ (readlineAux k l).2 = l := by
  induction l generalizing k with
  | nil => cases k <;> rfl
  | cons b rest ih =>
      cases k with
      | zero => rfl
      | succ k' =>
          by_cases hb : b = 10
          · simp [readlineAux, hb]
          · simp [readlineAux, hb, ih k']

theorem readlineAux_ne_nil (k : Nat) (l : List Nat) (hk : 0 < k) (hl : l ≠ []) :
    (readlineAux k l).1 ≠ [] := by
  cases l with
  | nil => exact absurd rfl hl
  | cons b rest =>
      cases k with
      | zero => omega
      | succ k' =>
          by_cases hb : b = 10 <;> simp [readlineAux, hb]

theorem trawl_read_none_eq (env : TrawlEnv) (parse : Nat → String → Option SourceRecord) :
    ∀ (fuel emitted ln : Nat) (l : List Nat), l.length < fuel →
      trawl_read_lines env parse none fuel emitted ln l
        = (chunkRecords env.max_line_bytes parse
             (readlineChunks (env.max_line_bytes + 1) fuel l) ln,
           l.length, false) := by
  intro fuel
  induction fuel with
  | zero => intro emitted ln l h; omega
  | succ fuel ih =>
      intro emitted ln l h
      by_cases hl : l = []
      · subst hl
        simp [trawl_read_lines, readlineChunks, chunkRecords, readlineAux]
      · have hraw : (readlineAux (env.max_line_bytes + 1) l).1 ≠ [] :=
          readlineAux_ne_nil _ _ (by omega) hl
        have hsplit := readlineAux_append (env.max_line_bytes + 1) l
        rcases hsp : readlineAux (env.max_line_bytes + 1) l with ⟨raw, rest⟩
        rw [hsp] at hraw hsplit
        have hlen : raw.length + rest.length = l.length := by
          rw [← hsplit]; simp
        have hrest : rest.length < fuel := by
          have : 0 < raw.length := List.length_pos.mpr hraw
          omega
        have hne : raw.isEmpty = false := by
          simp [List.isEmpty_iff, hraw]
        simp only [trawl_read_lines, readlineChunks, hsp, hne, Bool.false_eq_true,
          if_false]
        by_cases hcap : env.max_line_bytes < raw.length
        · simp only [hcap, if_true, chunkRecords]
          rw [ih emitted ln rest hrest]
          simp [hcap]
          omega
        · simp only [hcap, if_false, chunkRecords]
          cases hp : parse (ln + 1) (rstripCRLF (utf8Decode raw)) with
          | none =>
              rw [ih emitted (ln + 1) rest hrest]
              simp [hcap, hp]
              omega
          | some r =>
              simp only [limitHit]
              rw [ih (emitted + 1) (ln + 1) rest hrest]
              simp [hcap, hp]
              omega

theorem trawl_file_checkpoint (env : TrawlEnv) (emitted : Nat) (f : FileEntry)
    (cp? : Option FileCheckpoint) :
    (trawl_file env none emitted f cp?).2.1
        = checkpoint_for_file f.path f.bytes.length f.bytes.length f.mtime_ns f.inode
      ∧ (trawl_file env none emitted f cp?).2.2 = false := by
  by_cases h : f.bytes.length ≤ start_offset_for cp? f.inode f.bytes.length
  · simp [trawl_file, h]
  · have hdrop : (f.bytes.drop (start_offset_for cp? f.inode f.bytes.length)).length
        < f.bytes.length + 1 := by
      simp [List.length_drop]
      omega
    have hchar := trawl_read_none_eq env
      (fun ln line =>
        trawl_parse_line env f.path (ln + start_offset_for cp? f.inode f.bytes.length) line)
      (f.bytes.length + 1) emitted 0
      (f.bytes.drop (start_offset_for cp? f.inode f.bytes.length)) hdrop
    simp only [trawl_file, h, if_false, hchar]
    constructor
    · congr 1
      simp [List.length_drop]
      omega
    · trivial

/-- C5 counterexample: with a 4-byte cap, a tracked file holding one 12-byte
line still yields one record — the final 1-byte fragment of the over-long
line is parsed and emitted, where the claim requires no record at all for
that line. -/
theorem trawl_overlong_line_tail_emitted :
    (trawl_file envCap4 none 0 fileLongLine none).1.map (fun r => r.content) = ["k"]
    ∧ envCap4.max_line_bytes = 4
    ∧ fileLongLine.bytes.length = 12 := by
  refine ⟨rfl, rfl, rfl⟩

/-- C5 (amended): without an emission limit, a trawl pass over a file splits
it into `readline(cap + 1)` chunks, emits no record for any chunk longer
than the cap, advances the stream position past the whole content, and —
the file unchanged — a repeated pass emits nothing and leaves the
checkpoint as it was; however the final short fragment of an over-long line
is parsed as its own line and may be emitted. -/
theorem trawl_overlong_line_chunking :
    (∀ (env : TrawlEnv) (parse : Nat → String → Option SourceRecord)
       (fuel emitted ln : Nat) (l : List Nat), l.length < fuel →
        trawl_read_lines env parse none fuel emitted ln l
          = (chunkRecords env.max_line_bytes parse
               (readlineChunks (env.max_line_bytes + 1) fuel l) ln,
             l.length, false))
    ∧ (∀ (env : TrawlEnv) (e1 e2 : Nat) (f : FileEntry) (cp? : Option FileCheckpoint),
        trawl_file env none e2 f (some (trawl_file env none e1 f cp?).2.1)
          = ([], (trawl_file env none e1 f cp?).2.1, false)) := by
  refine ⟨fun env parse fuel emitted ln l h => trawl_read_none_eq env parse fuel emitted ln l h,
    ?_⟩
  intro env e1 e2 f cp?
  obtain ⟨hcp, _⟩ := trawl_file_checkpoint env e1 f cp?
  rw [hcp]
  have hstart : start_offset_for
      (some (checkpoint_for_file f.path f.bytes.length f.bytes.length f.mtime_ns f.inode))
      f.inode f.bytes.length = f.bytes.length := by
    simp [start_offset_for, checkpoint_for_file]
  simp [trawl_file, hstart]

/-- C4 counterexample: after reading a 5-byte file to its end (checkpoint
offset 5, size 5), truncating it to zero and rewriting 10 bytes on the same
inode, the next poll resumes at offset 5 — it returns only the tail record
`cccc`, not records for the full new content from offset 0 as the claim
requires. -/
theorem trawl_truncate_regrow_resumes_at_offset :
    (trawl_file envPlain none 0 fileRegrown (some cpStale)).1.map (fun r => r.content)
      = ["cccc"]
    ∧ start_offset_for (some cpStale) fileRegrown.inode fileRegrown.bytes.length = 5 := by
  refine ⟨rfl, rfl⟩

/-- C4 (amended): a truncate-and-rewrite is read as a fresh file from offset
0 exactly when there is no checkpoint, the stored inode differs, or the
stored size exceeds the current size — in those cases the poll behaves
exactly as with no checkpoint at all — and otherwise the start offset equals
the stored offset, so a rewrite that regrows the file to at least the stored
size resumes mid-content. -/
theorem trawl_rotation_start_offset :
    (∀ (env : TrawlEnv) (limit : Option Nat) (emitted : Nat) (f : FileEntry)
       (cp : FileCheckpoint),
        cp.inode ≠ f.inode ∨ f.bytes.length < cp.size →
        trawl_file env limit emitted f (some cp) = trawl_file env limit emitted f none)
    ∧ (∀ (cp : FileCheckpoint) (inode size : Nat),
        cp.inode = inode → cp.size ≤ size →
        start_offset_for (some cp) inode size = cp.offset)
    ∧ (∀ inode size : Nat, start_offset_for none inode size = 0) := by
  refine ⟨?_, ?_, fun inode size => rfl⟩
  · intro env limit emitted f cp h
    have h0 : start_offset_for (some cp) f.inode f.bytes.length
        = start_offset_for none f.inode f.bytes.length := by
      simp only [start_offset_for]
      rw [if_neg]
      rintro ⟨h1, h2⟩
      rcases h with h | h
      · exact h h1
      · omega
    simp only [trawl_file, h0]
  · intro cp inode size h1 h2
    simp [start_offset_for, h1, h2]

/-- C4 witness: the amended theorem at a truncate-to-smaller rewrite (3
bytes against a stored size of 5): the poll equals a fresh-file poll, and
the resume/no-checkpoint clauses at concrete values. -/
theorem trawl_rotation_start_offset_witness :
    (trawl_file envPlain none 0 fileTruncated (some cpStale)
      = trawl_file envPlain none 0 fileTruncated none)
    ∧ start_offset_for (some cpStale) 1 10 = 5
    ∧ start_offset_for none 1 10 = 0 :=
  ⟨trawl_rotation_start_offset.1 envPlain none 0 fileTruncated cpStale
      (Or.inr (by decide)),
   trawl_rotation_start_offset.2.1 cpStale 1 10 (by decide) (by decide),
   trawl_rotation_start_offset.2.2 1 10⟩

/-- C5 witness: the amended theorem at a concrete 3-byte file and at a
concrete repeated pass. -/
theorem trawl_overlong_line_chunking_witness :
    (trawl_read_lines envCap4 (fun ln line => trawl_parse_line envCap4 "logs/a.log" ln line)
        none 4 0 0 (utf8Encode "ab\n")
      = (chunkRecords envCap4.max_line_bytes
           (fun ln line => trawl_parse_line envCap4 "logs/a.log" ln line)
           (readlineChunks (envCap4.max_line_bytes + 1) 4 (utf8Encode "ab\n")) 0,
         (utf8Encode "ab\n").length, false))
    ∧ trawl_file envPlain none 0 fileTruncated
        (some (trawl_file envPlain none 0 fileTruncated none).2.1)
      = ([], (trawl_file envPlain none 0 fileTruncated none).2.1, false) :=
  ⟨trawl_overlong_line_chunking.1 envCap4 _ 4 0 0 (utf8Encode "ab\n") (by decide),
   trawl_overlong_line_chunking.2 envPlain 0 0 fileTruncated none⟩

/-! ### Line renumbering across checkpoint resets -/

theorem trawl_parse_line_shift (env : TrawlEnv) (path : String) (n s : Nat)
    (line : String) :
    trawl_parse_line env path (n + s) line
      = (trawl_parse_line env path n line).map
          fun r => { r with line_number := r.line_number + (s : Int) } := by
  by_cases hb : pyIsBlank line
  · simp [trawl_parse_line, hb]
  · by_cases hh : strHeadIs line leftBrace
    · cases hj : env.jsonLoads line with
      | none => simp [trawl_parse_line, hb, hh, hj, Nat.cast_add]
      | some v =>
          cases v <;> simp [trawl_parse_line, hb, hh, hj, Nat.cast_add]
    · simp [trawl_parse_line, hb, hh, Nat.cast_add]

theorem readlineChunks_fuel (k : Nat) :
    ∀ (fuel fuel' : Nat) (l : List Nat), l.length < fuel → l.length < fuel' →
      readlineChunks k fuel l = readlineChunks k fuel' l := by
  intro fuel
  induction fuel with
  | zero => intro fuel' l h _; omega
  | succ n ih =>
      intro fuel' l h h'
      cases fuel' with
      | zero => omega
      | succ m =>
          rcases hsp : readlineAux k l with ⟨raw, rest⟩
          by_cases hraw : raw.isEmpty
          · simp [readlineChunks, hsp, hraw]
          · have hsplit := readlineAux_append k l
            rw [hsp] at hsplit
            have hlen : raw.length + rest.length = l.length := by
              rw [← hsplit]; simp
            have hne : raw ≠ [] := by simpa [List.isEmpty_iff] using hraw
            have hpos : 0 < raw.length := List.length_pos.mpr hne
            simp [readlineChunks, hsp, hraw, ih m rest (by omega) (by omega)]

theorem chunkRecords_shift (env : TrawlEnv) (path : String) (s : Nat) :
    ∀ (cs : List (List Nat)) (ln : Nat),
      chunkRecords env.max_line_bytes
          (fun k line => trawl_parse_line env path (k + s) line) cs ln
        = (chunkRecords env.max_line_bytes
            (fun k line => trawl_parse_line env path k line) cs ln).map
            fun r => { r with line_number := r.line_number + (s : Int) } := by
  intro cs
  induction cs with
  | nil => intro ln; rfl
  | cons c rest ih =>
      intro ln
      by_cases hcap : env.max_line_bytes < c.length
      · simp only [chunkRecords, hcap, if_true]
        exact ih ln
      · simp only [chunkRecords, hcap, if_false]
        rw [trawl_parse_line_shift env path (ln + 1) s]
        cases hp : trawl_parse_line env path (ln + 1) (rstripCRLF (utf8Decode c)) with
        | none => simpa using ih (ln + 1)
        | some r => simpa using ih (ln + 1)

/-- Without an emission limit, the records of a per-file pass are the parsed
in-cap chunks of the bytes past the start offset. -/
theorem trawl_file_records (env : TrawlEnv) (emitted : Nat) (f : FileEntry)
    (cp? : Option FileCheckpoint) :
    (trawl_file env none emitted f cp?).1
      = chunkRecords env.max_line_bytes
          (fun ln line => trawl_parse_line env f.path
            (ln + start_offset_for cp? f.inode f.bytes.length) line)
          (readlineChunks (env.max_line_bytes + 1) (f.bytes.length + 1)
            (f.bytes.drop (start_offset_for cp? f.inode f.bytes.length)))
          0 := by
  by_cases h : f.bytes.length ≤ start_offset_for cp? f.inode f.bytes.length
  · have hdrop : f.bytes.drop (start_offset_for cp? f.inode f.bytes.length) = [] :=
      List.drop_eq_nil_of_le h
    simp [trawl_file, h, hdrop, readlineChunks, readlineAux, chunkRecords]
  · have hdrop : (f.bytes.drop (start_offset_for cp? f.inode f.bytes.length)).length
        < f.bytes.length + 1 := by
      simp [List.length_drop]
      omega
    have hchar := trawl_read_none_eq env
      (fun ln line =>
        trawl_parse_line env f.path (ln + start_offset_for cp? f.inode f.bytes.length) line)
      (f.bytes.length + 1) emitted 0
      (f.bytes.drop (start_offset_for cp? f.inode f.bytes.length)) hdrop
    simp only [trawl_file, h, if_false, hchar]

/-- A pass resumed from a checkpoint emits exactly what a no-checkpoint pass
over the identical remaining bytes emits, with every line number shifted by
the stored **byte** offset. -/
theorem trawl_file_resume_shift (env : TrawlEnv) (f : FileEntry)
    (cp? : Option FileCheckpoint) (emitted e' : Nat) :
    (trawl_file env none emitted f cp?).1
      = ((trawl_file env none e'
            { f with bytes := f.bytes.drop (start_offset_for cp? f.inode f.bytes.length) }
            none).1).map
          fun r => { r with line_number :=
              r.line_number + (start_offset_for cp? f.inode f.bytes.length : Int) } := by
  have h0 : ∀ (i n : Nat), start_offset_for none i n = 0 := fun _ _ => rfl
  rw [trawl_file_records env emitted f cp?, trawl_file_records env e' _ none]
  simp only [h0, Nat.add_zero, List.drop_zero]
  rw [readlineChunks_fuel (env.max_line_bytes + 1)
    ((f.bytes.drop (start_offset_for cp? f.inode f.bytes.length)).length + 1)
    (f.bytes.length + 1)
    (f.bytes.drop (start_offset_for cp? f.inode f.bytes.length))
    (by omega)
    (by simp [List.length_drop]; omega)]
  exact chunkRecords_shift env f.path _ _ 0

/-- C2 counterexample: `iter_new_records` numbers each emitted line as its
index within the current pass plus the stored byte offset, so a file
ingested across two polls (first its 3-byte prefix, then the grown 6-byte
file) records its second line with line number 4, while re-reading the
identical bytes after the checkpoint map is reset records it with line
number 2 — the event identifiers differ, and re-saving the replayed batch
inserts one new row where the claim requires none. -/
theorem trawl_reset_replay_inserts_new_row :
    ((iter_new_records envPlain none [fileWhole]
        (iter_new_records envPlain none [fileHead] [] 0).2 0).1.map
          fun r => (r.line_number, r.content)) = [((4 : Int), "bb")]
    ∧ ((iter_new_records envPlain none [fileWhole] [] 0).1.map
          fun r => (r.line_number, r.content)) = [((1 : Int), "aa"), ((2 : Int), "bb")]
    ∧ stable_event_id "terminal" "logs/g.log" 4 "bb"
        ≠ stable_event_id "terminal" "logs/g.log" 2 "bb"
    ∧ (save_events
          (save_events { } (normalize_records 0
            ((iter_new_records envPlain none [fileHead] [] 0).1
              ++ (iter_new_records envPlain none [fileWhole]
                    (iter_new_records envPlain none [fileHead] [] 0).2 0).1))).1
          (normalize_records 0
            (iter_new_records envPlain none [fileWhole] [] 0).1)).2 = 1 :=
  ⟨rfl, rfl, by decide, rfl⟩

/-- C2 (amended): the event identifier is a function of source, file path,
line number and content only; normalizing the same records at any two clock
readings yields the same identifiers, and re-saving the re-normalized batch
into either backend inserts zero rows and leaves the store unchanged; but a
trawl pass resumed from a checkpoint hands the parser each line counter plus
the stored byte offset, so it emits the contents of a no-checkpoint read of
the identical remaining bytes with every line number shifted by that byte
offset — identifiers survive a lost or reset checkpoint only when the
interrupted read had started at offset zero. -/
theorem content_addressed_identity_scope :
    (∀ r r' : SourceRecord, r.source = r'.source → r.file_path = r'.file_path →
        r.line_number = r'.line_number → r.content = r'.content →
        stable_event_id r.source r.file_path r.line_number r.content
          = stable_event_id r'.source r'.file_path r'.line_number r'.content)
    ∧ (∀ (now now' : Int) (records : List SourceRecord),
        (normalize_records now records).map (fun e => e.event_id)
          = (normalize_records now' records).map fun e => e.event_id)
    ∧ (∀ (now now' : Int) (records : List SourceRecord) (store : InMemoryStore),
        save_events (save_events store (normalize_records now records)).1
            (normalize_records now' records)
          = ((save_events store (normalize_records now records)).1, 0))
    ∧ (∀ (now now' : Int) (records : List SourceRecord) (table : SqliteEventsTable),
        sqlite_save_events (sqlite_save_events table (normalize_records now records)).1
            (normalize_records now' records)
          = ((sqlite_save_events table (normalize_records now records)).1, 0))
    ∧ (∀ (env : TrawlEnv) (f : FileEntry) (cp? : Option FileCheckpoint)
         (emitted e' : Nat),
        (trawl_file env none emitted f cp?).1
          = ((trawl_file env none e'
                { f with bytes :=
                    f.bytes.drop (start_offset_for cp? f.inode f.bytes.length) }
                none).1).map
              fun r => { r with line_number :=
                  r.line_number + (start_offset_for cp? f.inode f.bytes.length : Int) }) := by
  have hpresent : ∀ (now now' : Int) (records : List SourceRecord)
      (t : List (String × Event)) (e : Event),
      e ∈ normalize_records now' records →
      (((insertIgnoreList t (normalize_records now records)).1.lookup e.event_id).isSome
        = true) := by
    intro now now' records t e he
    refine (iil_keys _ _ _).mpr (Or.inr ?_)
    rw [normalize_ids now records, ← normalize_ids now' records]
    exact List.mem_map_of_mem _ he
  refine ⟨?_, ?_, ?_, ?_, ?_⟩
  · intro r r' h1 h2 h3 h4
    rw [h1, h2, h3, h4]
  · intro now now' records
    rw [normalize_ids, normalize_ids]
  · intro now now' records store
    rw [save_events_eq_iil store (normalize_records now records),
      save_events_eq_iil _ (normalize_records now' records)]
    have hnoop : insertIgnoreList (insertIgnoreList store.events
        (normalize_records now records)).1 (normalize_records now' records)
        = ((insertIgnoreList store.events (normalize_records now records)).1, 0) :=
      iil_noop _ _ fun e he => hpresent now now' records store.events e he
    simp [hnoop]
  · intro now now' records table
    rw [sqlite_eq_iil table (normalize_records now records),
      sqlite_eq_iil _ (normalize_records now' records)]
    exact iil_noop _ _ fun e he => hpresent now now' records table e he
  · intro env f cp? emitted e'
    exact trawl_file_resume_shift env f cp? emitted e'

/-- C2 witness: the identity clause of the amended theorem at two concrete
records agreeing on the four identity fields but differing in timestamp and
actor. -/
theorem content_addressed_identity_scope_witness :
    stable_event_id recA.source recA.file_path recA.line_number recA.content
      = stable_event_id recB.source recB.file_path recB.line_number recB.content :=
  content_addressed_identity_scope.1 recA recB rfl rfl rfl rfl

/-! ### Daemon cycle lemmas -/

theorem save_events_audits (s : InMemoryStore) (l : List Event) :
    (save_events s l).1.audits = s.audits := by
  rw [save_events_eq_iil]

theorem save_sessions_audits (l : List Session) :
    ∀ s : InMemoryStore, (save_sessions s l).1.audits = s.audits := by
  induction l with
  | nil => intro s; rfl
  | cons x rest ih =>
      intro s
      by_cases h : (s.sessions.lookup x.session_key).isSome <;>
        simp [save_sessions, h, ih]

theorem save_moments_audits (l : List Moment) :
    ∀ s : InMemoryStore, (save_moments s l).1.audits = s.audits := by
  induction l with
  | nil => intro s; rfl
  | cons x rest ih =>
      intro s
      by_cases h : (s.moments.lookup x.moment_id).isSome <;>
        simp [save_moments, h, ih]

theorem save_skills_audits (l : List SkillCandidate) :
    ∀ s : InMemoryStore, (save_skill_candidates s l).1.audits = s.audits := by
  induction l with
  | nil => intro s; rfl
  | cons x rest ih =>
      intro s
      simp [save_skill_candidates, ih]

theorem process_records_ok_audits (hooks : HookRegistry) (now : Int) (audit_id : String)
    (store0 : InMemoryStore) (source_name : String) (records : List SourceRecord)
    (counts : ProcessCounts) (store' : InMemoryStore)
    (h : process_records hooks now audit_id store0 source_name records = .ok (counts, store')) :
    ∃ a : IngestAudit, store'.audits = store0.audits ++ [a] := by
  unfold process_records at h
  cases hp : pipeline_stages hooks now records with
  | error e => rw [hp] at h; cases h
  | ok ctx =>
      rw [hp] at h
      have hst : store' = append_ingest_audit
          (save_skill_candidates
            (save_moments
              (save_sessions (save_events store0 ctx.events).1 ctx.sessions).1
              ctx.moments).1
            ctx.derived_skills).1
          { audit_id := audit_id
            ts := now
            source := source_name
            event_count := (save_events store0 ctx.events).2
            session_count := (save_sessions (save_events store0 ctx.events).1 ctx.sessions).2
            moment_count := (save_moments
              (save_sessions (save_events store0 ctx.events).1 ctx.sessions).1 ctx.moments).2
            skill_count := (save_skill_candidates
              (save_moments
                (save_sessions (save_events store0 ctx.events).1 ctx.sessions).1
                ctx.moments).1 ctx.derived_skills).2
            details_records := records.length } := by
        cases h
        rfl
      refine ⟨{ audit_id := audit_id, ts := now, source := source_name,
                event_count := (save_events store0 ctx.events).2,
                session_count :=
                  (save_sessions (save_events store0 ctx.events).1 ctx.sessions).2,
                moment_count := (save_moments
                  (save_sessions (save_events store0 ctx.events).1 ctx.sessions).1
                  ctx.moments).2,
                skill_count := (save_skill_candidates
                  (save_moments
                    (save_sessions (save_events store0 ctx.events).1 ctx.sessions).1
                    ctx.moments).1 ctx.derived_skills).2,
                details_records := records.length }, ?_⟩
      rw [hst]
      show (save_skill_candidates _ _).1.audits ++ _ = _
      rw [save_skills_audits, save_moments_audits, save_sessions_audits, save_events_audits]

theorem runCycle_append {σ : Type} (env : CycleEnv σ) (xs ys : List (Connector σ))
    (st : CycleState σ) :
    runCycle env (xs ++ ys) st
      = ((runCycle env xs st).1 ++ (runCycle env ys (runCycle env xs st).2).1,
         (runCycle env ys (runCycle env xs st).2).2) := by
  induction xs generalizing st with
  | nil => rfl
  | cons c rest ih =>
      show runCycle env (c :: (rest ++ ys)) st = _
      simp only [runCycle, ih, List.cons_append]

theorem processOneSource_poll_error {σ : Type} (env : CycleEnv σ) (c : Connector σ)
    (st : CycleState σ) (msg : String)
    (hpoll : c.poll ((st.per_source.lookup c.source_name).getD env.empty_state)
      = .error msg) :
    processOneSource env c st
      = (errorSummary c.source_name msg,
         { st with
             store := save_source_status st.store
               (SourceStatus.mk c.source_name STATUS_ERROR env.now 0 0 (some msg)) }) := by
  simp only [processOneSource, hpoll]

theorem processOneSource_idle {σ : Type} (env : CycleEnv σ) (c : Connector σ)
    (st : CycleState σ) (pr : SourcePollResult σ)
    (hpoll : c.poll ((st.per_source.lookup c.source_name).getD env.empty_state) = .ok pr)
    (hke : (((env.source_filters.lookup c.source_name).getD {}).apply pr.records).1.isEmpty
      = true) :
    processOneSource env c st
      = ({ source := c.source_name, status := STATUS_IDLE,
           records_seen := pr.stats.items_seen,
           records_ingested :=
             (((env.source_filters.lookup c.source_name).getD {}).apply pr.records).1.length,
           records_filtered :=
             (((env.source_filters.lookup c.source_name).getD {}).apply pr.records).2,
           groups_seen := pr.stats.groups_seen,
           group_item_counts := pr.stats.item_counts_by_group,
           inserted_events := 0, inserted_sessions := 0, inserted_moments := 0,
           inserted_skills := 0, error_message := none },
         { per_source := dictSet st.per_source c.source_name pr.state,
           store := save_source_status st.store
             (SourceStatus.mk c.source_name STATUS_IDLE env.now pr.stats.items_seen
               ((((env.source_filters.lookup c.source_name).getD {}).apply
                 pr.records).1.length) none),
           audit_seq := st.audit_seq }) := by
  simp only [processOneSource, hpoll, hke, if_true]

theorem processOneSource_proc_error {σ : Type} (env : CycleEnv σ) (c : Connector σ)
    (st : CycleState σ) (pr : SourcePollResult σ) (msg : String)
    (hpoll : c.poll ((st.per_source.lookup c.source_name).getD env.empty_state) = .ok pr)
    (hke : (((env.source_filters.lookup c.source_name).getD {}).apply pr.records).1.isEmpty
      = false)
    (hproc : process_records env.hooks env.now ("audit-" ++ toString st.audit_seq)
        st.store c.source_name
        (((env.source_filters.lookup c.source_name).getD {}).apply pr.records).1
      = .error msg) :
    processOneSource env c st
      = (errorSummary c.source_name msg,
         { per_source := dictSet st.per_source c.source_name pr.state,
           store := save_source_status st.store
             (SourceStatus.mk c.source_name STATUS_ERROR env.now 0 0 (some msg)),
           audit_seq := st.audit_seq }) := by
  simp only [processOneSource, hpoll, hke, Bool.false_eq_true, if_false, hproc]

theorem processOneSource_ingesting {σ : Type} (env : CycleEnv σ) (c : Connector σ)
    (st : CycleState σ) (pr : SourcePollResult σ) (counts : ProcessCounts)
    (store' : InMemoryStore)
    (hpoll : c.poll ((st.per_source.lookup c.source_name).getD env.empty_state) = .ok pr)
    (hke : (((env.source_filters.lookup c.source_name).getD {}).apply pr.records).1.isEmpty
      = false)
    (hproc : process_records env.hooks env.now ("audit-" ++ toString st.audit_seq)
        st.store c.source_name
        (((env.source_filters.lookup c.source_name).getD {}).apply pr.records).1
      = .ok (counts, store')) :
    processOneSource env c st
      = ({ source := c.source_name, status := STATUS_INGESTING,
           records_seen := pr.stats.items_seen,
           records_ingested :=
             (((env.source_filters.lookup c.source_name).getD {}).apply pr.records).1.length,
           records_filtered :=
             (((env.source_filters.lookup c.source_name).getD {}).apply pr.records).2,
           groups_seen := pr.stats.groups_seen,
           group_item_counts := pr.stats.item_counts_by_group,
           inserted_events := counts.inserted_events,
           inserted_sessions := counts.inserted_sessions,
           inserted_moments := counts.inserted_moments,
           inserted_skills := counts.inserted_skills, error_message := none },
         { per_source := dictSet st.per_source c.source_name pr.state,
           store := save_source_status store'
             (SourceStatus.mk c.source_name STATUS_INGESTING env.now pr.stats.items_seen
               ((((env.source_filters.lookup c.source_name).getD {}).apply
                 pr.records).1.length) none),
           audit_seq := st.audit_seq + 1 }) := by
  simp only [processOneSource, hpoll, hke, Bool.false_eq_true, if_false, hproc]

theorem processOneSource_error_shape {σ : Type} (env : CycleEnv σ) (c : Connector σ)
    (st : CycleState σ)
    (h : (processOneSource env c st).1.status = STATUS_ERROR) :
    ∃ msg, (processOneSource env c st).1 = errorSummary c.source_name msg
      ∧ (processOneSource env c st).2.store.source_status.lookup c.source_name
        = some { source := c.source_name, status := STATUS_ERROR,
                 last_poll_ts := env.now, records_seen := 0, records_ingested := 0,
                 error_message := some msg } := by
  cases hpoll : c.poll ((st.per_source.lookup c.source_name).getD env.empty_state) with
  | error msg =>
      rw [processOneSource_poll_error env c st msg hpoll]
      exact ⟨msg, rfl, by simp [save_source_status, dictSet_lookup_self]⟩
  | ok pr =>
      cases hke : (((env.source_filters.lookup c.source_name).getD {}).apply
          pr.records).1.isEmpty with
      | true =>
          rw [processOneSource_idle env c st pr hpoll hke] at h
          exact absurd (show STATUS_IDLE = STATUS_ERROR from h) (by decide)
      | false =>
          cases hproc : process_records env.hooks env.now
              ("audit-" ++ toString st.audit_seq) st.store c.source_name
              (((env.source_filters.lookup c.source_name).getD {}).apply pr.records).1 with
          | error msg =>
              rw [processOneSource_proc_error env c st pr msg hpoll hke hproc]
              exact ⟨msg, rfl, by simp [save_source_status, dictSet_lookup_self]⟩
          | ok res =>
              rw [processOneSource_ingesting env c st pr res.1 res.2 hpoll hke
                (by rw [hproc])] at h
              exact absurd (show STATUS_INGESTING = STATUS_ERROR from h) (by decide)

theorem processOneSource_audits {σ : Type} (env : CycleEnv σ) (c : Connector σ)
    (st : CycleState σ) :
    ∃ t : List IngestAudit,
      (processOneSource env c st).2.store.audits = st.store.audits ++ t
      ∧ t.length
        = (if (processOneSource env c st).1.status == STATUS_INGESTING then 1 else 0) := by
  cases hpoll : c.poll ((st.per_source.lookup c.source_name).getD env.empty_state) with
  | error msg =>
      rw [processOneSource_poll_error env c st msg hpoll]
      exact ⟨[], by simp [save_source_status], by rfl⟩
  | ok pr =>
      cases hke : (((env.source_filters.lookup c.source_name).getD {}).apply
          pr.records).1.isEmpty with
      | true =>
          rw [processOneSource_idle env c st pr hpoll hke]
          exact ⟨[], by simp [save_source_status], by rfl⟩
      | false =>
          cases hproc : process_records env.hooks env.now
              ("audit-" ++ toString st.audit_seq) st.store c.source_name
              (((env.source_filters.lookup c.source_name).getD {}).apply pr.records).1 with
          | error msg =>
              rw [processOneSource_proc_error env c st pr msg hpoll hke hproc]
              exact ⟨[], by simp [save_source_status], by rfl⟩
          | ok res =>
              rw [processOneSource_ingesting env c st pr res.1 res.2 hpoll hke
                (by rw [hproc])]
              obtain ⟨a, ha⟩ := process_records_ok_audits _ _ _ _ _ _ res.1 res.2
                (by rw [hproc])
              exact ⟨[a], by simpa [save_source_status] using ha, by rfl⟩

/-- C1: processing within one cycle decomposes around any failing source —
the sources before and after it are processed exactly as they would be, the
failing source contributes exactly one summary, and its status is recorded
as `error` with the failure message. -/
theorem daemon_cycle_per_source_isolation :
    ∀ (σ : Type) (env : CycleEnv σ) (l1 l2 : List (Connector σ)) (bad : Connector σ)
      (st0 : CycleState σ),
      (processOneSource env bad (runCycle env l1 st0).2).1.status = STATUS_ERROR →
      (runCycle env (l1 ++ bad :: l2) st0
        = ((runCycle env l1 st0).1
            ++ (processOneSource env bad (runCycle env l1 st0).2).1
            :: (runCycle env l2 (processOneSource env bad (runCycle env l1 st0).2).2).1,
           (runCycle env l2 (processOneSource env bad (runCycle env l1 st0).2).2).2))
      ∧ ∃ msg,
          (processOneSource env bad (runCycle env l1 st0).2).1
            = errorSummary bad.source_name msg
          ∧ (processOneSource env bad (runCycle env l1 st0).2).2.store.source_status.lookup
              bad.source_name
            = some { source := bad.source_name, status := STATUS_ERROR,
                     last_poll_ts := env.now, records_seen := 0, records_ingested := 0,
                     error_message := some msg } := by
  intro σ env l1 l2 bad st0 h
  constructor
  · rw [runCycle_append]
    rfl
  · exact processOneSource_error_shape env bad _ h

/-- C1 witness: a three-source cycle whose middle connector's poll raises is
decomposed by the claim theorem; the hypothesis is discharged by
evaluation. -/
theorem daemon_cycle_per_source_isolation_witness :
    ((processOneSource cycleEnvNat (connBoom "b")
        (runCycle cycleEnvNat [connIdle "a"] ({} : CycleState Nat)).2).1.status
      = STATUS_ERROR)
    ∧ runCycle cycleEnvNat ([connIdle "a"] ++ connBoom "b" :: [connIdle "c"]) {}
        = ((runCycle cycleEnvNat [connIdle "a"] {}).1
            ++ (processOneSource cycleEnvNat (connBoom "b")
                  (runCycle cycleEnvNat [connIdle "a"] {}).2).1
            :: (runCycle cycleEnvNat [connIdle "c"]
                  (processOneSource cycleEnvNat (connBoom "b")
                    (runCycle cycleEnvNat [connIdle "a"] {}).2).2).1,
           (runCycle cycleEnvNat [connIdle "c"]
              (processOneSource cycleEnvNat (connBoom "b")
                (runCycle cycleEnvNat [connIdle "a"] {}).2).2).2) :=
  ⟨rfl,
   (daemon_cycle_per_source_isolation Nat cycleEnvNat [connIdle "a"] [connIdle "c"]
      (connBoom "b") {} rfl).1⟩

/-- C9 counterexample: a completed cycle that polled one source (idle, no
records) appends zero audit records, not one per polled source. -/
theorem audit_missing_for_idle_source :
    (runCycle cycleEnvNat [connIdle "terminal"] {}).1.length = 1
    ∧ (runCycle cycleEnvNat [connIdle "terminal"] {}).2.store.audits.length = 0 :=
  ⟨rfl, rfl⟩

/-- C9 (amended): over a cycle the audit log only ever grows by appending —
no existing audit record is mutated or deleted — and exactly one audit
record is appended per source whose processing completed with at least one
kept record (status `ingesting`); idle and failing sources append none. -/
theorem audit_appended_iff_ingesting :
    ∀ (σ : Type) (env : CycleEnv σ) (cs : List (Connector σ)) (st : CycleState σ),
      ∃ t : List IngestAudit,
        (runCycle env cs st).2.store.audits = st.store.audits ++ t
        ∧ t.length
          = ((runCycle env cs st).1.filter fun s => s.status == STATUS_INGESTING).length := by
  intro σ env cs
  induction cs with
  | nil => exact fun st => ⟨[], by simp [runCycle], by simp [runCycle]⟩
  | cons c rest ih =>
      intro st
      obtain ⟨t1, ht1, hl1⟩ := processOneSource_audits env c st
      obtain ⟨t2, ht2, hl2⟩ := ih (processOneSource env c st).2
      refine ⟨t1 ++ t2, ?_, ?_⟩
      · show (runCycle env rest (processOneSource env c st).2).2.store.audits = _
        rw [ht2, ht1, List.append_assoc]
      · show (t1 ++ t2).length
          = (((processOneSource env c st).1
              :: (runCycle env rest (processOneSource env c st).2).1).filter
                fun s => s.status == STATUS_INGESTING).length
        rw [List.length_append, hl1, hl2, List.filter_cons]
        by_cases hs : ((processOneSource env c st).1.status == STATUS_INGESTING) = true
        · simp [hs]
          omega
        · simp [hs]

end Amnesia
